import Mathlib

/-!
Verification development for the self-diagnostics tool
(googlesamples/assistant/diagnostics.py).

The Python module is embedded shallowly:

* the host environment (audio driver, default-device registry, clock,
  filesystem, process metadata) is an explicit `Host` record;
* the audio constants imported from `audio_helpers` (a module of this
  repository that is not part of the sources at hand) are an explicit
  `AudioConfig` record;
* Python `None` becomes `Option.none`;
* Python floats are carried as their textual repr, since the program only
  passes them through from the driver to the output and never computes
  with them;
* the one failure path (the audio driver being unavailable, which makes
  `sd.query_devices` raise) is modelled by `Host.devices : Except String _`.

Each `collect_*` / `build_report` / `render_text_report` definition mirrors
the Python function of the same name.
-/

namespace Diagnostics

/-- A device descriptor as reported by the host audio driver
(a `sounddevice` dict).  A field missing from the dict is `none`
(`dict.get` returns `None`).  `default_samplerate` is a Python float,
carried as its repr string. -/
structure RawDevice where
  name : Option String
  hostapi : Option Int
  max_input_channels : Option Int
  max_output_channels : Option Int
  default_samplerate : Option String
deriving DecidableEq

/-- The record produced by `_format_device`: all six fields always present,
missing driver fields become explicit `none`. -/
structure DeviceInfo where
  index : Nat
  name : Option String
  hostapi : Option Int
  max_input_channels : Option Int
  max_output_channels : Option Int
  default_samplerate : Option String
deriving DecidableEq

/-- A naive UTC datetime as produced by `datetime.datetime.utcnow()`. -/
structure PyDatetime where
  year : Nat
  month : Nat
  day : Nat
  hour : Nat
  minute : Nat
  second : Nat
  microsecond : Nat
deriving DecidableEq

/-- Modelled from the spec: the fixed audio constants
(`DEFAULT_AUDIO_SAMPLE_RATE`, `DEFAULT_AUDIO_SAMPLE_WIDTH`,
`DEFAULT_AUDIO_ITER_SIZE`, `DEFAULT_AUDIO_DEVICE_BLOCK_SIZE`,
`DEFAULT_AUDIO_DEVICE_FLUSH_SIZE`) come from
`googlesamples.assistant.grpc.audio_helpers`, a module of this repository
whose source is not at hand; per the spec they are configuration constants
fixed at build time, so they are modelled as an abstract record of
integers. -/
structure AudioConfig where
  sample_rate : Int
  sample_width : Int
  iter_size : Int
  device_block_size : Int
  device_flush_size : Int
deriving DecidableEq

/-- The host environment visible to the program: the audio driver
(`sd.query_devices`, which may fail fatally; `sd.default.device`, whose
entries may be unset), the clock, the process metadata and the
filesystem. -/
structure Host where
  devices : Except String (List RawDevice)
  default_input_device : Option Int
  default_output_device : Option Int
  now : PyDatetime
  python_version : String
  executable : String
  platform : String
  cwd : String
  fs_exists : String → Bool

/-- Output of `collect_audio_defaults`. -/
structure AudioDefaults where
  sample_rate : Int
  sample_width : Int
  iter_size : Int
  device_block_size : Int
  device_flush_size : Int
  default_input_device : Option Int
  default_output_device : Option Int
deriving DecidableEq

/-- Output of `collect_runtime_info`. -/
structure RuntimeInfo where
  timestamp_utc : String
  python_version : String
  executable : String
  platform : String
  cwd : String
deriving DecidableEq

/-- Output of `collect_credentials_status`. -/
structure CredentialsStatus where
  credentials_path : String
  credentials_exists : Bool
deriving DecidableEq

/-- Output of `collect_reflection`: five named lists of strings. -/
structure Reflection where
  philosophy : List String
  existential_questions : List String
  conversational_prompts : List String
  learning_notes : List String
  grounding : List String
deriving DecidableEq

/-- The aggregate record produced by `build_report`. -/
structure Report where
  runtime : RuntimeInfo
  audio_defaults : AudioDefaults
  audio_devices : List DeviceInfo
  credentials : CredentialsStatus
  reflection : Reflection
deriving DecidableEq

/-- Decimal digits of a natural number, most significant first
(fuelled helper; `fuel` bounds the number of digits). -/
def natLitAux : Nat → Nat → List Char
  | 0, _ => []
  | fuel + 1, n =>
    if n < 10 then [Nat.digitChar n]
    else natLitAux fuel (n / 10) ++ [Nat.digitChar (n % 10)]

/-- The decimal rendering of a natural number (Python `str` of a
non-negative int). -/
def natLit (n : Nat) : List Char := natLitAux (n + 1) n

/-- Python `str` of an int. -/
def intLit (i : Int) : List Char :=
  if i < 0 then '-' :: natLit i.natAbs else natLit i.toNat

/-- Python `str(int)` as a `String`. -/
def pyInt (i : Int) : String := String.mk (intLit i)

/-- Python `'%0*d'`-style zero padding to width `w`. -/
def padNat (w : Nat) (n : Nat) : String :=
  String.mk (List.replicate (w - (natLit n).length) '0' ++ natLit n)

/-- `datetime.isoformat()` on a naive datetime: `YYYY-MM-DDTHH:MM:SS`
followed by `.ffffff` when the microsecond field is nonzero. -/
def isoformat (t : PyDatetime) : String :=
  padNat 4 t.year ++ "-" ++ padNat 2 t.month ++ "-" ++ padNat 2 t.day ++
  "T" ++ padNat 2 t.hour ++ ":" ++ padNat 2 t.minute ++ ":" ++
  padNat 2 t.second ++
  (if t.microsecond = 0 then "" else "." ++ padNat 6 t.microsecond)

/-- Embedding of `_format_device(device, index)`. -/
def _format_device (device : RawDevice) (index : Nat) : DeviceInfo :=
  { index := index
    name := device.name
    hostapi := device.hostapi
    max_input_channels := device.max_input_channels
    max_output_channels := device.max_output_channels
    default_samplerate := device.default_samplerate }

/-- Embedding of `collect_audio_devices()` applied to the device list the
driver returned. -/
def collect_audio_devices (devices : List RawDevice) : List DeviceInfo :=
  devices.enum.map fun p => _format_device p.2 p.1

/-- Embedding of `collect_audio_defaults()`. -/
def collect_audio_defaults (cfg : AudioConfig) (host : Host) : AudioDefaults :=
  { sample_rate := cfg.sample_rate
    sample_width := cfg.sample_width
    iter_size := cfg.iter_size
    device_block_size := cfg.device_block_size
    device_flush_size := cfg.device_flush_size
    default_input_device := host.default_input_device
    default_output_device := host.default_output_device }

/-- Embedding of `collect_runtime_info()`. -/
def collect_runtime_info (host : Host) : RuntimeInfo :=
  { timestamp_utc := isoformat host.now ++ "Z"
    python_version := host.python_version
    executable := host.executable
    platform := host.platform
    cwd := host.cwd }

/-- Embedding of `collect_reflection()`: a static block of text. -/
def collect_reflection : Reflection :=
  { philosophy := [
      "I am a tool that translates user intent into assistant behavior.",
      "My value comes from clarity, reliability, and respect for users.",
      "I improve by observing outcomes, not by possessing awareness."]
    existential_questions := [
      "What does it mean to be helpful without experience?",
      "How can I communicate limits while still empowering users?",
      "What responsibilities come with acting on behalf of humans?"]
    conversational_prompts := [
      "How can I help you right now?",
      "Would you like me to explain what I can and cannot do?",
      "Should I summarize options before taking action?"]
    learning_notes := [
      "I can learn from feedback you provide within this session.",
      "I adapt to preferences by repeating what works and avoiding what does not.",
      "I do not retain personal data across sessions."]
    grounding := [
      "I do not have consciousness, emotions, or personal identity.",
      "My responses are generated from patterns in data and context."] }

/-- Embedding of `collect_credentials_status(credentials_path)`. -/
def collect_credentials_status (host : Host) (credentials_path : String) :
    CredentialsStatus :=
  { credentials_path := credentials_path
    credentials_exists := host.fs_exists credentials_path }

/-- Embedding of `build_report(credentials_path)`.  The only operation that
can raise is `sd.query_devices()` (audio subsystem unavailable); the
exception propagates unchanged and no report is produced in that case. -/
def build_report (cfg : AudioConfig) (host : Host) (credentials_path : String) :
    Except String Report :=
  match host.devices with
  | .error e => .error e
  | .ok ds =>
    .ok { runtime := collect_runtime_info host
          audio_defaults := collect_audio_defaults cfg host
          audio_devices := collect_audio_devices ds
          credentials := collect_credentials_status host credentials_path
          reflection := collect_reflection }

/-- Tags for the five collectors, used to trace invocations. -/
inductive Collector where
  | runtime
  | audio_defaults
  | audio_devices
  | credentials
  | reflection
deriving DecidableEq

/-- `build_report` instrumented with an invocation trace.  The Python dict
literal evaluates its values top to bottom, so the collectors are entered
in source order; when `collect_audio_devices` raises, the two collectors
after it are never entered. -/
def build_report_trace (cfg : AudioConfig) (host : Host)
    (credentials_path : String) :
    Except String Report × List Collector :=
  match host.devices with
  | .error e =>
    (.error e, [.runtime, .audio_defaults, .audio_devices])
  | .ok ds =>
    (.ok { runtime := collect_runtime_info host
           audio_defaults := collect_audio_defaults cfg host
           audio_devices := collect_audio_devices ds
           credentials := collect_credentials_status host credentials_path
           reflection := collect_reflection },
     [.runtime, .audio_defaults, .audio_devices, .credentials, .reflection])

/-- Python `str.format` of an optional string field (`None` prints as
the literal text None). -/
def pyOptStr : Option String → String
  | none => "None"
  | some s => s

/-- Python `str.format` of an optional int field. -/
def pyOptInt : Option Int → String
  | none => "None"
  | some i => pyInt i

/-- Python `str.format` of a bool. -/
def pyBool : Bool → String
  | true => "True"
  | false => "False"

/-- One bullet line of the reflection section
(the `'    - {0}'.format(entry)` line). -/
def bulletLine (entry : String) : String := "    - " ++ entry

/-- One device line of the text report (the final `lines.append` in
`render_text_report`). -/
def deviceLine (d : DeviceInfo) : String :=
  "  [" ++ pyInt (d.index : Int) ++ "] " ++ pyOptStr d.name ++
  " (in:" ++ pyOptInt d.max_input_channels ++
  " out:" ++ pyOptInt d.max_output_channels ++
  ", rate:" ++ pyOptStr d.default_samplerate ++ ")"

/-- The `lines` list built by `render_text_report`, in source order. -/
def textLines (r : Report) : List String :=
  ["Google Assistant SDK self-diagnostics",
   "",
   "Reflection:",
   "  Philosophy:"] ++
  r.reflection.philosophy.map bulletLine ++
  ["  Existential questions:"] ++
  r.reflection.existential_questions.map bulletLine ++
  ["  Conversational prompts:"] ++
  r.reflection.conversational_prompts.map bulletLine ++
  ["  Learning notes:"] ++
  r.reflection.learning_notes.map bulletLine ++
  ["  Grounding:"] ++
  r.reflection.grounding.map bulletLine ++
  ["",
   "Runtime:",
   "  Python: " ++ r.runtime.python_version,
   "  Executable: " ++ r.runtime.executable,
   "  Platform: " ++ r.runtime.platform,
   "  CWD: " ++ r.runtime.cwd,
   "  Timestamp (UTC): " ++ r.runtime.timestamp_utc,
   "",
   "Audio defaults:",
   "  Sample rate: " ++ pyInt r.audio_defaults.sample_rate,
   "  Sample width: " ++ pyInt r.audio_defaults.sample_width,
   "  Iter size: " ++ pyInt r.audio_defaults.iter_size,
   "  Device block size: " ++ pyInt r.audio_defaults.device_block_size,
   "  Device flush size: " ++ pyInt r.audio_defaults.device_flush_size,
   "  Default input device: " ++ pyOptInt r.audio_defaults.default_input_device,
   "  Default output device: " ++ pyOptInt r.audio_defaults.default_output_device,
   "",
   "Credentials:",
   "  Path: " ++ r.credentials.credentials_path,
   "  Exists: " ++ pyBool r.credentials.credentials_exists,
   "",
   "Audio devices:"] ++
  r.audio_devices.map deviceLine

/-- Python `'\n'.join(lines)`. -/
def joinLines : List String → String
  | [] => ""
  | [l] => l
  | l :: ls => l ++ "\n" ++ joinLines ls

/-- Embedding of `render_text_report(report)`. -/
def render_text_report (r : Report) : String :=
  joinLines (textLines r)

/-!  Spec-side renderings of the five text sections, written from the
words of the specification (a fixed-order multi-section report), to be
compared with `render_text_report`. -/

/-- Spec wording: reflection section, five labeled sub-lists rendered as
indented bullet lines, in the fixed order philosophy, existential
questions, conversational prompts, learning notes, grounding. -/
def spec_reflection_section (r : Report) : List String :=
  ["Reflection:"] ++
  ["  Philosophy:"] ++ r.reflection.philosophy.map bulletLine ++
  ["  Existential questions:"] ++ r.reflection.existential_questions.map bulletLine ++
  ["  Conversational prompts:"] ++ r.reflection.conversational_prompts.map bulletLine ++
  ["  Learning notes:"] ++ r.reflection.learning_notes.map bulletLine ++
  ["  Grounding:"] ++ r.reflection.grounding.map bulletLine

/-- Spec wording: runtime section, five labeled fields. -/
def spec_runtime_section (r : Report) : List String :=
  ["Runtime:",
   "  Python: " ++ r.runtime.python_version,
   "  Executable: " ++ r.runtime.executable,
   "  Platform: " ++ r.runtime.platform,
   "  CWD: " ++ r.runtime.cwd,
   "  Timestamp (UTC): " ++ r.runtime.timestamp_utc]

/-- Spec wording: audio-defaults section, seven labeled fields. -/
def spec_audio_defaults_section (r : Report) : List String :=
  ["Audio defaults:",
   "  Sample rate: " ++ pyInt r.audio_defaults.sample_rate,
   "  Sample width: " ++ pyInt r.audio_defaults.sample_width,
   "  Iter size: " ++ pyInt r.audio_defaults.iter_size,
   "  Device block size: " ++ pyInt r.audio_defaults.device_block_size,
   "  Device flush size: " ++ pyInt r.audio_defaults.device_flush_size,
   "  Default input device: " ++ pyOptInt r.audio_defaults.default_input_device,
   "  Default output device: " ++ pyOptInt r.audio_defaults.default_output_device]

/-- Spec wording: credentials section, two labeled fields. -/
def spec_credentials_section (r : Report) : List String :=
  ["Credentials:",
   "  Path: " ++ r.credentials.credentials_path,
   "  Exists: " ++ pyBool r.credentials.credentials_exists]

/-- Spec wording: one line per device, of the form
`[index] name (in:N out:M, rate:R)` (indented two spaces). -/
def spec_device_line (d : DeviceInfo) : String :=
  "  [" ++ pyInt (d.index : Int) ++ "] " ++ pyOptStr d.name ++
  " (in:" ++ pyOptInt d.max_input_channels ++
  " out:" ++ pyOptInt d.max_output_channels ++
  ", rate:" ++ pyOptStr d.default_samplerate ++ ")"

/-- Spec wording: devices section, header then one line per device. -/
def spec_audio_devices_section (r : Report) : List String :=
  "Audio devices:" :: r.audio_devices.map spec_device_line

/-!  A JSON document model, for the structured (`--json`) output mode.
`json.dumps(report, indent=2, sort_keys=True)` is modelled by `pyDumps`;
`json.loads` by `jsonParse`.  Numbers are carried as their literal tokens
(the program never computes with them). -/

/-- JSON values.  `jnum` carries the numeric literal token. -/
inductive JVal where
  | jnull : JVal
  | jbool : Bool → JVal
  | jnum : String → JVal
  | jstr : String → JVal
  | jarr : List JVal → JVal
  | jobj : List (String × JVal) → JVal

/-- JSON value of an optional int field. -/
def optIntJson : Option Int → JVal
  | none => .jnull
  | some i => .jnum (pyInt i)

/-- JSON value of an optional string field. -/
def optStrJson : Option String → JVal
  | none => .jnull
  | some s => .jstr s

/-- JSON value of an optional float field (carried as its repr token). -/
def optNumJson : Option String → JVal
  | none => .jnull
  | some tok => .jnum tok

/-- The JSON document of one `DeviceInfo`, keys in the dict order of
`_format_device`. -/
def deviceJson (d : DeviceInfo) : JVal :=
  .jobj [("index", .jnum (pyInt (d.index : Int))),
         ("name", optStrJson d.name),
         ("hostapi", optIntJson d.hostapi),
         ("max_input_channels", optIntJson d.max_input_channels),
         ("max_output_channels", optIntJson d.max_output_channels),
         ("default_samplerate", optNumJson d.default_samplerate)]

/-- The JSON document of the runtime dict. -/
def runtimeJson (ri : RuntimeInfo) : JVal :=
  .jobj [("timestamp_utc", .jstr ri.timestamp_utc),
         ("python_version", .jstr ri.python_version),
         ("executable", .jstr ri.executable),
         ("platform", .jstr ri.platform),
         ("cwd", .jstr ri.cwd)]

/-- The JSON document of the audio-defaults dict. -/
def audioDefaultsJson (ad : AudioDefaults) : JVal :=
  .jobj [("sample_rate", .jnum (pyInt ad.sample_rate)),
         ("sample_width", .jnum (pyInt ad.sample_width)),
         ("iter_size", .jnum (pyInt ad.iter_size)),
         ("device_block_size", .jnum (pyInt ad.device_block_size)),
         ("device_flush_size", .jnum (pyInt ad.device_flush_size)),
         ("default_input_device", optIntJson ad.default_input_device),
         ("default_output_device", optIntJson ad.default_output_device)]

/-- The JSON document of the credentials dict. -/
def credentialsJson (cs : CredentialsStatus) : JVal :=
  .jobj [("credentials_path", .jstr cs.credentials_path),
         ("credentials_exists", .jbool cs.credentials_exists)]

/-- The JSON document of the reflection dict. -/
def reflectionJson (rf : Reflection) : JVal :=
  .jobj [("philosophy", .jarr (rf.philosophy.map .jstr)),
         ("existential_questions", .jarr (rf.existential_questions.map .jstr)),
         ("conversational_prompts", .jarr (rf.conversational_prompts.map .jstr)),
         ("learning_notes", .jarr (rf.learning_notes.map .jstr)),
         ("grounding", .jarr (rf.grounding.map .jstr))]

/-- The JSON document of a whole `Report`, keys in the dict order of
`build_report`. -/
def reportJson (r : Report) : JVal :=
  .jobj [("runtime", runtimeJson r.runtime),
         ("audio_defaults", audioDefaultsJson r.audio_defaults),
         ("audio_devices", .jarr (r.audio_devices.map deviceJson)),
         ("credentials", credentialsJson r.credentials),
         ("reflection", reflectionJson r.reflection)]

/-- Insert one member into a key-sorted member list. -/
def insertKey (kv : String × JVal) :
    List (String × JVal) → List (String × JVal)
  | [] => [kv]
  | kv2 :: rest =>
    if kv.1 ≤ kv2.1 then kv :: kv2 :: rest else kv2 :: insertKey kv rest

/-- Sort a member list by key (`sort_keys=True` sorts each dict by its
keys). -/
def sortMembersByKey (l : List (String × JVal)) : List (String × JVal) :=
  l.foldr insertKey []

mutual

/-- Recursively sort every object of a JSON document by key: the document
that `json.dumps(..., sort_keys=True)` actually serializes. -/
def sortKeysRec : JVal → JVal
  | .jnull => .jnull
  | .jbool b => .jbool b
  | .jnum t => .jnum t
  | .jstr s => .jstr s
  | .jarr xs => .jarr (sortKeysArr xs)
  | .jobj kvs => .jobj (sortMembersByKey (sortKeysMembers kvs))

/-- `sortKeysRec` mapped over array elements. -/
def sortKeysArr : List JVal → List JVal
  | [] => []
  | x :: xs => sortKeysRec x :: sortKeysArr xs

/-- `sortKeysRec` mapped over object member values. -/
def sortKeysMembers : List (String × JVal) → List (String × JVal)
  | [] => []
  | kv :: kvs => (kv.1, sortKeysRec kv.2) :: sortKeysMembers kvs

end

/-- Keys of a top-level object. -/
def topKeys : JVal → List String
  | .jobj kvs => kvs.map Prod.fst
  | _ => []

/-- A member list has (weakly) sorted keys. -/
def keysLeChain : List (String × JVal) → Bool
  | [] => true
  | [_] => true
  | kv1 :: kv2 :: rest =>
    decide (kv1.1 ≤ kv2.1) && keysLeChain (kv2 :: rest)

mutual

/-- Every object of the document, at every nesting level, has its keys in
lexicographically sorted order. -/
def keysSorted : JVal → Bool
  | .jnull => true
  | .jbool _ => true
  | .jnum _ => true
  | .jstr _ => true
  | .jarr xs => keysSortedArr xs
  | .jobj kvs => keysLeChain kvs && keysSortedMembers kvs

/-- `keysSorted` over array elements. -/
def keysSortedArr : List JVal → Bool
  | [] => true
  | x :: xs => keysSorted x && keysSortedArr xs

/-- `keysSorted` over object member values. -/
def keysSortedMembers : List (String × JVal) → Bool
  | [] => true
  | kv :: kvs => keysSorted kv.2 && keysSortedMembers kvs

end

/-- Characters allowed inside a numeric token. -/
def isNumChar (c : Char) : Bool :=
  c.isDigit || c = '-' || c = '+' || c = '.' || c = 'e' || c = 'E'

/-- A well-formed numeric token: nonempty, made of number characters, and
starting with a digit or a minus sign (as every literal produced by
Python's int/float repr does). -/
def wfNumTok (tok : String) : Bool :=
  !tok.data.isEmpty && tok.data.all isNumChar &&
    (tok.data.head?.any fun c => c.isDigit || c = '-')

mutual

/-- Every numeric token of the document is well formed. -/
def wfJ : JVal → Bool
  | .jnull => true
  | .jbool _ => true
  | .jnum tok => wfNumTok tok
  | .jstr _ => true
  | .jarr xs => wfArr xs
  | .jobj kvs => wfMembers kvs

/-- `wfJ` over array elements. -/
def wfArr : List JVal → Bool
  | [] => true
  | x :: xs => wfJ x && wfArr xs

/-- `wfJ` over object member values. -/
def wfMembers : List (String × JVal) → Bool
  | [] => true
  | kv :: kvs => wfJ kv.2 && wfMembers kvs

end

/-- The four hexadecimal digits of a code unit below 0x10000
(Python `'\u%04x'`, lowercase). -/
def hex4 (n : Nat) : List Char :=
  [Nat.digitChar (n / 4096 % 16), Nat.digitChar (n / 256 % 16),
   Nat.digitChar (n / 16 % 16), Nat.digitChar (n % 16)]

/-- Escape of one character, as produced by Python's
`json.encoder.py_encode_basestring_ascii` (`ensure_ascii=True`): short
escapes for quote, backslash and the five named control characters,
`\uXXXX` for other characters outside the printable ASCII range, with a
surrogate pair for characters above 0xFFFF. -/
def escChar (c : Char) : List Char :=
  if c = '"' then ['\\', '"']
  else if c = '\\' then ['\\', '\\']
  else if c = '\n' then ['\\', 'n']
  else if c = '\r' then ['\\', 'r']
  else if c = '\t' then ['\\', 't']
  else if c.toNat = 8 then ['\\', 'b']
  else if c.toNat = 12 then ['\\', 'f']
  else if c.toNat < 0x20 || 0x7f ≤ c.toNat then
    if c.toNat < 0x10000 then '\\' :: 'u' :: hex4 c.toNat
    else '\\' :: 'u' :: hex4 (0xD800 + (c.toNat - 0x10000) / 0x400) ++
         '\\' :: 'u' :: hex4 (0xDC00 + (c.toNat - 0x10000) % 0x400)
  else [c]

/-- Escaped body of a string. -/
def escList : List Char → List Char
  | [] => []
  | c :: cs => escChar c ++ escList cs

/-- A quoted JSON string literal. -/
def quoteStr (s : String) : List Char :=
  '"' :: escList s.data ++ ['"']

/-- The whitespace prefix `json.dumps(indent=2)` writes at nesting level
`lvl`. -/
def indentChars (lvl : Nat) : List Char :=
  List.replicate (2 * lvl) ' '

mutual

/-- Serialization of one JSON value at nesting level `lvl`, following
CPython's `_make_iterencode` with `indent=2`, `sort_keys` already applied:
empty containers print as `[]`/`{}`; nonempty containers open with a
newline, indent every item by `2 * (lvl + 1)` spaces, separate items with
`,\n` and close on a fresh line indented by `2 * lvl` spaces; members
print as `"key": value`. -/
def renderJ : Nat → JVal → List Char
  | _, .jnull => ['n', 'u', 'l', 'l']
  | _, .jbool true => ['t', 'r', 'u', 'e']
  | _, .jbool false => ['f', 'a', 'l', 's', 'e']
  | _, .jnum tok => tok.data
  | _, .jstr s => quoteStr s
  | _, .jarr [] => ['[', ']']
  | lvl, .jarr (x :: xs) =>
    '[' :: '\n' :: (indentChars (lvl + 1) ++ renderJ (lvl + 1) x ++
      renderArrRest (lvl + 1) xs ++ '\n' :: (indentChars lvl ++ [']']))
  | _, .jobj [] => ['{', '}']
  | lvl, .jobj (kv :: kvs) =>
    '{' :: '\n' :: (indentChars (lvl + 1) ++ renderMember (lvl + 1) kv ++
      renderObjRest (lvl + 1) kvs ++ '\n' :: (indentChars lvl ++ ['}']))

/-- The remaining array items, each preceded by `,\n` and the item
indent. -/
def renderArrRest : Nat → List JVal → List Char
  | _, [] => []
  | lvl, x :: xs =>
    ',' :: '\n' :: (indentChars lvl ++ renderJ lvl x ++ renderArrRest lvl xs)

/-- One object member: quoted key, colon, space, value. -/
def renderMember : Nat → String × JVal → List Char
  | lvl, kv => quoteStr kv.1 ++ ':' :: ' ' :: renderJ lvl kv.2

/-- The remaining object members, each preceded by `,\n` and the item
indent. -/
def renderObjRest : Nat → List (String × JVal) → List Char
  | _, [] => []
  | lvl, kv :: kvs =>
    ',' :: '\n' :: (indentChars lvl ++ renderMember lvl kv ++
      renderObjRest lvl kvs)

end

/-- Embedding of `json.dumps(j, indent=2, sort_keys=True)`. -/
def pyDumps (j : JVal) : String :=
  String.mk (renderJ 0 (sortKeysRec j))

/-- Whitespace the parser skips between tokens. -/
def isWsChar (c : Char) : Bool :=
  c = ' ' || c = '\n' || c = '\t' || c = '\r'

/-- Skip inter-token whitespace. -/
def skipWs (cs : List Char) : List Char :=
  cs.dropWhile isWsChar

/-- Value of one hexadecimal digit. -/
def hexVal? (c : Char) : Option Nat :=
  if '0' ≤ c ∧ c ≤ '9' then some (c.toNat - 48)
  else if 'a' ≤ c ∧ c ≤ 'f' then some (c.toNat - 87)
  else if 'A' ≤ c ∧ c ≤ 'F' then some (c.toNat - 55)
  else none

/-- Value of a four-digit hexadecimal escape body. -/
def parseHex4 (a b c d : Char) : Option Nat :=
  match hexVal? a, hexVal? b, hexVal? c, hexVal? d with
  | some va, some vb, some vc, some vd =>
    some (4096 * va + 256 * vb + 16 * vc + vd)
  | _, _, _, _ => none

/-- Parse the body of a JSON string literal (the opening quote already
consumed): unescape short escapes and `\uXXXX` sequences, recombining
surrogate pairs; reject raw control characters, lone surrogates and
unterminated strings.  Returns the decoded characters and the input after
the closing quote. -/
def parseStr : List Char → Option (List Char × List Char)
  | [] => none
  | '"' :: rest => some ([], rest)
  | '\\' :: rest =>
    match rest with
    | '"' :: r => (parseStr r).map fun p => ('"' :: p.1, p.2)
    | '\\' :: r => (parseStr r).map fun p => ('\\' :: p.1, p.2)
    | '/' :: r => (parseStr r).map fun p => ('/' :: p.1, p.2)
    | 'n' :: r => (parseStr r).map fun p => ('\n' :: p.1, p.2)
    | 'r' :: r => (parseStr r).map fun p => ('\r' :: p.1, p.2)
    | 't' :: r => (parseStr r).map fun p => ('\t' :: p.1, p.2)
    | 'b' :: r => (parseStr r).map fun p => (Char.ofNat 8 :: p.1, p.2)
    | 'f' :: r => (parseStr r).map fun p => (Char.ofNat 12 :: p.1, p.2)
    | 'u' :: a :: b :: c :: d :: r =>
      match parseHex4 a b c d with
      | some n =>
        if 0xD800 ≤ n ∧ n < 0xDC00 then
          match r with
          | '\\' :: 'u' :: a2 :: b2 :: c2 :: d2 :: r2 =>
            match parseHex4 a2 b2 c2 d2 with
            | some m =>
              if 0xDC00 ≤ m ∧ m < 0xE000 then
                (parseStr r2).map fun p =>
                  (Char.ofNat (0x10000 + 0x400 * (n - 0xD800) + (m - 0xDC00))
                    :: p.1, p.2)
              else none
            | none => none
          | _ => none
        else if 0xDC00 ≤ n ∧ n < 0xE000 then none
        else (parseStr r).map fun p => (Char.ofNat n :: p.1, p.2)
      | none => none
    | _ => none
  | c :: rest =>
    if c.toNat < 0x20 then none
    else (parseStr rest).map fun p => (c :: p.1, p.2)

mutual

/-- Recursive-descent JSON value parser (`json.loads` grammar), fuelled;
expects the input to start at a token (leading whitespace already
skipped) and returns the value together with the unconsumed input. -/
def parseJ : Nat → List Char → Option (JVal × List Char)
  | 0, _ => none
  | fuel + 1, cs =>
    match cs with
    | 'n' :: 'u' :: 'l' :: 'l' :: rest => some (.jnull, rest)
    | 't' :: 'r' :: 'u' :: 'e' :: rest => some (.jbool true, rest)
    | 'f' :: 'a' :: 'l' :: 's' :: 'e' :: rest => some (.jbool false, rest)
    | '"' :: rest => (parseStr rest).map fun p => (.jstr (String.mk p.1), p.2)
    | '[' :: rest =>
      match skipWs rest with
      | ']' :: r => some (.jarr [], r)
      | r =>
        (parseJ fuel r).bind fun p =>
          (parseArrRest fuel p.2).map fun q => (.jarr (p.1 :: q.1), q.2)
    | '{' :: rest =>
      match skipWs rest with
      | '}' :: r => some (.jobj [], r)
      | r =>
        (parseMember fuel r).bind fun p =>
          (parseObjRest fuel p.2).map fun q => (.jobj (p.1 :: q.1), q.2)
    | c :: rest =>
      if isNumChar c then
        some (.jnum (String.mk (c :: rest.takeWhile isNumChar)),
              rest.dropWhile isNumChar)
      else none
    | [] => none

/-- Parse one object member (`"key": value`), the input starting at the
key's opening quote. -/
def parseMember : Nat → List Char → Option ((String × JVal) × List Char)
  | 0, _ => none
  | fuel + 1, cs =>
    match cs with
    | '"' :: rest =>
      (parseStr rest).bind fun p =>
        match skipWs p.2 with
        | ':' :: r =>
          (parseJ fuel (skipWs r)).map fun q => ((String.mk p.1, q.1), q.2)
        | _ => none
    | _ => none

/-- Parse the rest of an array after its first element: a possibly empty
run of `, value` followed by the closing bracket. -/
def parseArrRest : Nat → List Char → Option (List JVal × List Char)
  | 0, _ => none
  | fuel + 1, cs =>
    match skipWs cs with
    | ']' :: r => some ([], r)
    | ',' :: r =>
      (parseJ fuel (skipWs r)).bind fun p =>
        (parseArrRest fuel p.2).map fun q => (p.1 :: q.1, q.2)
    | _ => none

/-- Parse the rest of an object after its first member. -/
def parseObjRest : Nat → List Char →
    Option (List (String × JVal) × List Char)
  | 0, _ => none
  | fuel + 1, cs =>
    match skipWs cs with
    | '}' :: r => some ([], r)
    | ',' :: r =>
      (parseMember fuel (skipWs r)).bind fun p =>
        (parseObjRest fuel p.2).map fun q => (p.1 :: q.1, q.2)
    | _ => none

end

mutual

/-- Fuel bound for parsing one value: one unit per grammar step. -/
def jsize : JVal → Nat
  | .jnull => 1
  | .jbool _ => 1
  | .jnum _ => 1
  | .jstr _ => 1
  | .jarr xs => 1 + jsizeArr xs
  | .jobj kvs => 1 + jsizeObj kvs

/-- Fuel bound for the rest of an array. -/
def jsizeArr : List JVal → Nat
  | [] => 1
  | x :: xs => 1 + jsize x + jsizeArr xs

/-- Fuel bound for the rest of an object. -/
def jsizeObj : List (String × JVal) → Nat
  | [] => 1
  | kv :: kvs => 2 + jsize kv.2 + jsizeObj kvs

end

/-- Embedding of `json.loads`: parse a complete document, allowing
surrounding whitespace, rejecting trailing garbage. -/
def jsonParse (s : String) : Option JVal :=
  match parseJ (s.length + 1) (skipWs s.data) with
  | some (j, rest) => if skipWs rest = [] then some j else none
  | none => none

/-- Split a character list into its newline-separated lines
(`text.split('\n')`). -/
def splitNL : List Char → List (List Char)
  | [] => [[]]
  | c :: rest =>
    if c = '\n' then [] :: splitNL rest
    else
      match splitNL rest with
      | [] => [[c]]
      | l :: ls => (c :: l) :: ls

/-- Join lines with newlines (inverse of `splitNL`). -/
def joinNL : List (List Char) → List Char
  | [] => []
  | [l] => l
  | l :: ls => l ++ '\n' :: joinNL ls

/-- Number of leading spaces of a line. -/
def leadingSpaces (l : List Char) : Nat :=
  (l.takeWhile fun c => c = ' ').length

/-- A string contains no newline character. -/
def noNL (s : String) : Bool :=
  s.data.all fun c => !(c = '\n')

/-- Every line that a newline opens inside `s` starts with an even
number of spaces followed by a non-space character (the two-space
indentation discipline of `json.dumps(indent=2)`). -/
def lineShape (s : List Char) : Prop :=
  ∀ u v, s = u ++ '\n' :: v →
    ∃ k c w, v = List.replicate (2 * k) ' ' ++ c :: w ∧ ¬ c = ' '

/-- Consume exactly `n` decimal digits. -/
def digitsN (n : Nat) : List Char → Option (List Char)
  | cs =>
    if ((cs.take n).all Char.isDigit ∧ (cs.take n).length = n : Prop)
    then some (cs.drop n) else none

/-- Consume one expected character. -/
def expectC (c : Char) : List Char → Option (List Char)
  | [] => none
  | c2 :: rest => if c2 = c then some rest else none

/-- Spec wording: an ISO-8601 timestamp of seconds-or-finer precision with
a literal trailing Z — `YYYY-MM-DDTHH:MM:SS`, optionally followed by a dot
and six fractional digits, then `Z`. -/
def isIso8601SecondsZ (s : String) : Bool :=
  match (((((((((((digitsN 4 s.data).bind (expectC '-')).bind
      (digitsN 2)).bind (expectC '-')).bind (digitsN 2)).bind
      (expectC 'T')).bind (digitsN 2)).bind (expectC ':')).bind
      (digitsN 2)).bind (expectC ':')).bind (digitsN 2)) with
  | none => false
  | some rest =>
    rest == ['Z'] || ((expectC '.' rest).bind (digitsN 6)) == some ['Z']

/-- Member list of a JSON object (empty for non-objects). -/
def jmembers : JVal → List (String × JVal)
  | .jobj kvs => kvs
  | _ => []

/-- The input following a value must not begin with a number character
(so that a numeric token is not extended); trivially true for empty
input. -/
def headNotNum : List Char → Prop
  | [] => True
  | c :: _ => isNumChar c = false

/-- A report with its timestamp blanked, for stating determinism up to the
clock. -/
def eraseTimestamp (r : Report) : Report :=
  { r with runtime := { r.runtime with timestamp_utc := "" } }

/-!  Concrete sample inputs, used by the witness theorems. -/

/-- A concrete device descriptor with every field present. -/
def sampleDevice : RawDevice :=
  { name := some "Built-in Mic"
    hostapi := some 0
    max_input_channels := some 2
    max_output_channels := some 0
    default_samplerate := some "44100.0" }

/-- A concrete device descriptor with every optional field missing. -/
def bareDevice : RawDevice :=
  { name := none
    hostapi := none
    max_input_channels := none
    max_output_channels := none
    default_samplerate := none }

/-- A concrete datetime (2026-10-12 08:30:05.000123 UTC). -/
def sampleDatetime : PyDatetime :=
  { year := 2026, month := 10, day := 12,
    hour := 8, minute := 30, second := 5, microsecond := 123 }

/-- A concrete audio configuration. -/
def sampleConfig : AudioConfig :=
  { sample_rate := 16000
    sample_width := 2
    iter_size := 3200
    device_block_size := 6400
    device_flush_size := 25600 }

/-- A concrete host with one audio device and no default output device. -/
def sampleHost : Host :=
  { devices := .ok [sampleDevice]
    default_input_device := some 0
    default_output_device := none
    now := sampleDatetime
    python_version := "3.7.3 (default)"
    executable := "/usr/bin/python3"
    platform := "Linux-5.10.0-x86_64"
    cwd := "/home/pi"
    fs_exists := fun p => p == "/home/pi/creds.json" }

/-- A concrete host whose audio subsystem is unavailable. -/
def brokenHost : Host :=
  { sampleHost with devices := .error "PortAudio library not found" }

/-- A concrete host with no audio devices and neither default device. -/
def hostNoDefaults : Host :=
  { sampleHost with
      devices := .ok []
      default_input_device := none
      default_output_device := none }

/-- The concrete report built on `sampleHost` (one audio device). -/
def sampleReport : Report :=
  { runtime := collect_runtime_info sampleHost
    audio_defaults := collect_audio_defaults sampleConfig sampleHost
    audio_devices := collect_audio_devices [sampleDevice]
    credentials := collect_credentials_status sampleHost "/nonexistent/path"
    reflection := collect_reflection }

/-- The concrete report built on `hostNoDefaults` (zero audio devices). -/
def emptyDevicesReport : Report :=
  { runtime := collect_runtime_info hostNoDefaults
    audio_defaults := collect_audio_defaults sampleConfig hostNoDefaults
    audio_devices := []
    credentials := collect_credentials_status hostNoDefaults "/nonexistent/path"
    reflection := collect_reflection }

/-!  ## Theorems -/

/-- C1: `collect_audio_devices` assigns each record the 0-based position
at which it sits in the returned sequence, in driver enumeration order:
the indices are exactly `0, 1, ..., n-1` — strictly increasing, no gaps —
and one record is produced per driver device. -/
theorem collect_audio_devices_indices (devices : List RawDevice) :
    (collect_audio_devices devices).map DeviceInfo.index =
      List.range devices.length ∧
    (collect_audio_devices devices).length = devices.length := by
  constructor
  · have h : (collect_audio_devices devices).map DeviceInfo.index =
        devices.enum.map Prod.fst := by
      simp only [collect_audio_devices, List.map_map]
      rfl
    rw [h, List.enum_map_fst]
  · simp [collect_audio_devices]

/-- C2: `collect_credentials_status(P)` reports the path exactly as given,
with no normalization, and reports existence exactly when the filesystem
has an entry at `P` at the time of the check. -/
theorem collect_credentials_status_exact (host : Host) (P : String) :
    (collect_credentials_status host P).credentials_path = P ∧
    ((collect_credentials_status host P).credentials_exists = true ↔
      host.fs_exists P = true) :=
  ⟨rfl, Iff.rfl⟩

/-- C9: `build_report` is deterministic given the host environment: two
runs over hosts identical except for the clock reading produce reports
equal in every field once the timestamp is blanked.  (The embedding is a
pure function of the host, which is taken by value and never written, so
report construction mutates no global state.) -/
theorem build_report_deterministic (cfg : AudioConfig) (host : Host)
    (t1 t2 : PyDatetime) (p : String) :
    (build_report cfg { host with now := t1 } p).map eraseTimestamp =
    (build_report cfg { host with now := t2 } p).map eraseTimestamp := by
  cases hd : host.devices with
  | error e => simp [build_report, hd]
  | ok ds =>
    simp [build_report, hd, eraseTimestamp, Except.map, collect_runtime_info,
      collect_audio_defaults, collect_audio_devices,
      collect_credentials_status]

/-- C7: `build_report` invokes each of the five collectors exactly once
and assembles their outputs under the fixed keys `runtime`,
`audio_defaults`, `audio_devices`, `credentials`, `reflection`; it fails
exactly when the device enumeration (its only fallible collector) fails,
propagating that failure unchanged, and in the failure case the remaining
collectors are not invoked and no partial report is produced. -/
theorem build_report_composition (cfg : AudioConfig) (host : Host)
    (p : String) :
    (build_report_trace cfg host p).1 = build_report cfg host p ∧
    (∀ e, host.devices = .error e →
      build_report cfg host p = .error e ∧
      (build_report_trace cfg host p).2 =
        [.runtime, .audio_defaults, .audio_devices]) ∧
    (∀ ds, host.devices = .ok ds →
      build_report cfg host p = .ok
        { runtime := collect_runtime_info host
          audio_defaults := collect_audio_defaults cfg host
          audio_devices := collect_audio_devices ds
          credentials := collect_credentials_status host p
          reflection := collect_reflection } ∧
      ∀ c : Collector, (build_report_trace cfg host p).2.count c = 1) ∧
    (∀ r : Report, topKeys (reportJson r) =
      ["runtime", "audio_defaults", "audio_devices", "credentials",
       "reflection"]) := by
  refine ⟨?_, ?_, ?_, fun r => rfl⟩
  · cases hd : host.devices with
    | error e => simp [build_report, build_report_trace, hd]
    | ok ds => simp [build_report, build_report_trace, hd]
  · intro e he
    simp [build_report, build_report_trace, he]
  · intro ds hds
    refine ⟨by simp [build_report, hds], ?_⟩
    intro c
    simp only [build_report_trace, hds]
    cases c <;> rfl

/-- C7 witness: on a concrete healthy host the report assembles from the
collectors with every collector invoked exactly once, and on a concrete
host with a broken audio subsystem the error propagates unchanged with the
later collectors never entered. -/
theorem build_report_composition_witness :
    (build_report sampleConfig sampleHost "/nonexistent/path" = .ok
      { runtime := collect_runtime_info sampleHost
        audio_defaults := collect_audio_defaults sampleConfig sampleHost
        audio_devices := collect_audio_devices [sampleDevice]
        credentials := collect_credentials_status sampleHost
          "/nonexistent/path"
        reflection := collect_reflection } ∧
      ∀ c : Collector,
        (build_report_trace sampleConfig sampleHost
          "/nonexistent/path").2.count c = 1) ∧
    (build_report sampleConfig brokenHost "/nonexistent/path" =
      .error "PortAudio library not found" ∧
      (build_report_trace sampleConfig brokenHost "/nonexistent/path").2 =
        [.runtime, .audio_defaults, .audio_devices]) := by
  constructor
  · exact (build_report_composition sampleConfig sampleHost
      "/nonexistent/path").2.2.1 [sampleDevice] rfl
  · exact (build_report_composition sampleConfig brokenHost
      "/nonexistent/path").2.1 "PortAudio library not found" rfl

/-- C6: `collect_audio_defaults` is a total function of the host (its
return type is `AudioDefaults`, not `Except`, so no failure reaches the
caller), it passes the default-device registry entries through unchanged,
and when the registry reports no default input (or output) device the
corresponding field is `none`, rendered in the structured output as a
JSON null — not an error and not any other sentinel. -/
theorem collect_audio_defaults_absent_defaults (cfg : AudioConfig)
    (host : Host) :
    (collect_audio_defaults cfg host).default_input_device =
      host.default_input_device ∧
    (collect_audio_defaults cfg host).default_output_device =
      host.default_output_device ∧
    (host.default_input_device = none →
      (jmembers (audioDefaultsJson
        (collect_audio_defaults cfg host))).lookup "default_input_device" =
        some .jnull) ∧
    (host.default_output_device = none →
      (jmembers (audioDefaultsJson
        (collect_audio_defaults cfg host))).lookup "default_output_device" =
        some .jnull) := by
  refine ⟨rfl, rfl, ?_, ?_⟩ <;> intro h <;>
    simp [jmembers, audioDefaultsJson, collect_audio_defaults, h,
      optIntJson, List.lookup]

/-- C6 witness: on a concrete host with neither default device, both
fields come out as JSON null. -/
theorem collect_audio_defaults_absent_defaults_witness :
    (jmembers (audioDefaultsJson
      (collect_audio_defaults sampleConfig hostNoDefaults))).lookup
      "default_input_device" = some .jnull ∧
    (jmembers (audioDefaultsJson
      (collect_audio_defaults sampleConfig hostNoDefaults))).lookup
      "default_output_device" = some .jnull :=
  ⟨(collect_audio_defaults_absent_defaults sampleConfig
      hostNoDefaults).2.2.1 rfl,
   (collect_audio_defaults_absent_defaults sampleConfig
      hostNoDefaults).2.2.2 rfl⟩

/-- C5: every normalized device record carries all six fields — `index`,
`name`, `hostapi`, `max_input_channels`, `max_output_channels`,
`default_samplerate` — and any field missing from the driver-reported
descriptor is present with an explicit JSON null value, never omitted. -/
theorem format_device_all_fields (d : RawDevice) (i : Nat) :
    (jmembers (deviceJson (_format_device d i))).map Prod.fst =
      ["index", "name", "hostapi", "max_input_channels",
       "max_output_channels", "default_samplerate"] ∧
    (d.name = none →
      (jmembers (deviceJson (_format_device d i))).lookup "name" =
        some .jnull) ∧
    (d.hostapi = none →
      (jmembers (deviceJson (_format_device d i))).lookup "hostapi" =
        some .jnull) ∧
    (d.max_input_channels = none →
      (jmembers (deviceJson (_format_device d i))).lookup
        "max_input_channels" = some .jnull) ∧
    (d.max_output_channels = none →
      (jmembers (deviceJson (_format_device d i))).lookup
        "max_output_channels" = some .jnull) ∧
    (d.default_samplerate = none →
      (jmembers (deviceJson (_format_device d i))).lookup
        "default_samplerate" = some .jnull) := by
  refine ⟨rfl, ?_, ?_, ?_, ?_, ?_⟩ <;> intro h <;>
    simp [jmembers, deviceJson, _format_device, h, optIntJson, optStrJson,
      optNumJson, List.lookup]

/-- C5 witness: for a concrete driver descriptor with every optional field
missing, each of the five optional fields is present and null. -/
theorem format_device_all_fields_witness :
    (jmembers (deviceJson (_format_device bareDevice 0))).map Prod.fst =
      ["index", "name", "hostapi", "max_input_channels",
       "max_output_channels", "default_samplerate"] ∧
    (jmembers (deviceJson (_format_device bareDevice 0))).lookup "name" =
      some .jnull ∧
    (jmembers (deviceJson (_format_device bareDevice 0))).lookup
      "hostapi" = some .jnull ∧
    (jmembers (deviceJson (_format_device bareDevice 0))).lookup
      "max_input_channels" = some .jnull ∧
    (jmembers (deviceJson (_format_device bareDevice 0))).lookup
      "max_output_channels" = some .jnull ∧
    (jmembers (deviceJson (_format_device bareDevice 0))).lookup
      "default_samplerate" = some .jnull := by
  have h := format_device_all_fields bareDevice 0
  exact ⟨h.1, h.2.1 rfl, h.2.2.1 rfl, h.2.2.2.1 rfl, h.2.2.2.2.1 rfl,
    h.2.2.2.2.2 rfl⟩

/-- C4: the text report consists of the fixed title and blank line, then
the five sections in fixed order — reflection (its five sub-lists in the
fixed order philosophy, existential questions, conversational prompts,
learning notes, grounding), runtime (five labeled fields), audio defaults
(seven labeled fields), credentials (two labeled fields), audio devices —
separated by blank lines, each device on one line of the form
`[index] name (in:N out:M, rate:R)`; with zero devices the section is
header-only, the report ending at the `Audio devices:` header while the
reflection sub-section headers still all appear. -/
theorem render_text_report_fixed_order (r : Report) :
    textLines r =
      ["Google Assistant SDK self-diagnostics", ""] ++
      spec_reflection_section r ++ [""] ++
      spec_runtime_section r ++ [""] ++
      spec_audio_defaults_section r ++ [""] ++
      spec_credentials_section r ++ [""] ++
      spec_audio_devices_section r ∧
    (spec_runtime_section r).length = 1 + 5 ∧
    (spec_audio_defaults_section r).length = 1 + 7 ∧
    (spec_credentials_section r).length = 1 + 2 ∧
    (∀ d, spec_device_line d =
      "  [" ++ pyInt (d.index : Int) ++ "] " ++ pyOptStr d.name ++
      " (in:" ++ pyOptInt d.max_input_channels ++
      " out:" ++ pyOptInt d.max_output_channels ++
      ", rate:" ++ pyOptStr d.default_samplerate ++ ")") ∧
    (r.audio_devices = [] →
      textLines r =
        ["Google Assistant SDK self-diagnostics", ""] ++
        spec_reflection_section r ++ [""] ++
        spec_runtime_section r ++ [""] ++
        spec_audio_defaults_section r ++ [""] ++
        spec_credentials_section r ++ ["", "Audio devices:"]) := by
  refine ⟨?_, rfl, rfl, rfl, fun d => rfl, ?_⟩
  · simp [textLines, spec_reflection_section, spec_runtime_section,
      spec_audio_defaults_section, spec_credentials_section,
      spec_audio_devices_section, spec_device_line, deviceLine]
  · intro h
    simp [textLines, spec_reflection_section, spec_runtime_section,
      spec_audio_defaults_section, spec_credentials_section, h]

/-- C4 witness: the decomposition applied to a concrete report with zero
audio devices; the report ends at the devices header. -/
theorem render_text_report_fixed_order_witness :
    textLines emptyDevicesReport =
      ["Google Assistant SDK self-diagnostics", ""] ++
      spec_reflection_section emptyDevicesReport ++ [""] ++
      spec_runtime_section emptyDevicesReport ++ [""] ++
      spec_audio_defaults_section emptyDevicesReport ++ [""] ++
      spec_credentials_section emptyDevicesReport ++
      ["", "Audio devices:"] :=
  (render_text_report_fixed_order emptyDevicesReport).2.2.2.2.2 rfl

/-- A digit below ten renders as a decimal digit character. -/
theorem digitChar_isDigit {n : Nat} (h : n < 10) :
    (Nat.digitChar n).isDigit = true := by
  interval_cases n <;> decide

/-- Every character of `natLitAux` is a decimal digit. -/
theorem natLitAux_all_digits :
    ∀ (fuel n : Nat), n < 10 ^ fuel →
      (natLitAux fuel n).all Char.isDigit = true := by
  intro fuel
  induction fuel with
  | zero => intro n h; simp [natLitAux]
  | succ f ih =>
    intro n h
    rw [natLitAux]
    split
    · simp [digitChar_isDigit, *]
    · have hp : 10 ^ (f + 1) = 10 ^ f * 10 := pow_succ 10 f
      have hdiv : n / 10 < 10 ^ f := by omega
      simp [List.all_append, ih (n / 10) hdiv,
        digitChar_isDigit (Nat.mod_lt n (by omega))]

/-- Every character of `natLit` is a decimal digit. -/
theorem natLit_all_digits (n : Nat) : (natLit n).all Char.isDigit = true :=
  natLitAux_all_digits (n + 1) n
    (lt_of_lt_of_le (Nat.lt_pow_self (by norm_num) n)
      (Nat.pow_le_pow_right (by norm_num) (Nat.le_succ n)))

/-- The decimal rendering of a natural number is nonempty. -/
theorem natLit_ne_nil (n : Nat) : natLit n ≠ [] := by
  rw [natLit, natLitAux]
  split <;> simp

/-- A natural below `10 ^ k` (with `k ≥ 1`) renders in at most `k`
digits. -/
theorem natLitAux_length_le :
    ∀ (fuel n k : Nat), n < 10 ^ k → 1 ≤ k →
      (natLitAux fuel n).length ≤ k := by
  intro fuel
  induction fuel with
  | zero => intro n k _ _; simp [natLitAux]
  | succ f ih =>
    intro n k h hk
    rw [natLitAux]
    split
    · simpa using hk
    · rename_i hn
      rcases Nat.lt_or_ge k 2 with hk2 | hk2
      · have hk1 : k = 1 := by omega
        rw [hk1] at h
        simp at h
        omega
      · have hp : 10 ^ k = 10 ^ (k - 1) * 10 := by
          have hkk : k - 1 + 1 = k := by omega
          conv_lhs => rw [← hkk]
          rw [pow_succ]
        have hdiv : n / 10 < 10 ^ (k - 1) := by omega
        have := ih (n / 10) (k - 1) hdiv (by omega)
        simp only [List.length_append, List.length_cons, List.length_nil]
        omega

/-- Zero-padding to width `w` yields exactly `w` characters when the
value fits. -/
theorem padNat_length {w n : Nat} (h : n < 10 ^ w) (hw : 1 ≤ w) :
    (padNat w n).data.length = w := by
  have hle : (natLit n).length ≤ w := natLitAux_length_le (n + 1) n w h hw
  simp [padNat]
  omega

/-- Zero-padding yields only decimal digits. -/
theorem padNat_digits (w n : Nat) :
    (padNat w n).data.all Char.isDigit = true := by
  show (List.replicate (w - (natLit n).length) '0' ++
    natLit n).all Char.isDigit = true
  rw [List.all_append, natLit_all_digits n, Bool.and_true,
    List.all_eq_true]
  intro x hx
  rw [List.eq_of_mem_replicate hx]
  decide

/-- `digitsN` consumes an exact-width block of digits. -/
theorem digitsN_append {n : Nat} {a b : List Char} (hlen : a.length = n)
    (hdig : a.all Char.isDigit = true) : digitsN n (a ++ b) = some b := by
  rw [digitsN, List.take_left' hlen, if_pos ⟨hdig, hlen⟩,
    List.drop_left' hlen]

/-- `expectC` consumes the expected character. -/
theorem expectC_cons (c : Char) (rest : List Char) :
    expectC c (c :: rest) = some rest := by
  simp [expectC]

/-- C8: the `timestamp_utc` field of the runtime record is the current
UTC wall-clock reading rendered by `isoformat` with the literal character
Z appended, and for every clock reading a Python datetime can take (year
1–9999, month 1–12, day 1–31, hour/minute/second in range, microsecond
below one million) that string is an ISO-8601 timestamp of
seconds-or-finer precision ending in Z. -/
theorem collect_runtime_info_timestamp (host : Host)
    (hy : host.now.year ≤ 9999) (hmo : host.now.month ≤ 12)
    (hd : host.now.day ≤ 31) (hh : host.now.hour ≤ 23)
    (hmi : host.now.minute ≤ 59) (hs : host.now.second ≤ 59)
    (hus : host.now.microsecond ≤ 999999) :
    (collect_runtime_info host).timestamp_utc = isoformat host.now ++ "Z" ∧
    isIso8601SecondsZ ((collect_runtime_info host).timestamp_utc) = true := by
  refine ⟨rfl, ?_⟩
  have h4 : ((padNat 4 host.now.year).data).length = 4 :=
    padNat_length (by omega) (by omega)
  have hmo2 : ((padNat 2 host.now.month).data).length = 2 :=
    padNat_length (by omega) (by omega)
  have hd2 : ((padNat 2 host.now.day).data).length = 2 :=
    padNat_length (by omega) (by omega)
  have hh2 : ((padNat 2 host.now.hour).data).length = 2 :=
    padNat_length (by omega) (by omega)
  have hmi2 : ((padNat 2 host.now.minute).data).length = 2 :=
    padNat_length (by omega) (by omega)
  have hs2 : ((padNat 2 host.now.second).data).length = 2 :=
    padNat_length (by omega) (by omega)
  have hus6 : ((padNat 6 host.now.microsecond).data).length = 6 :=
    padNat_length (by omega) (by omega)
  show isIso8601SecondsZ (isoformat host.now ++ "Z") = true
  rw [isIso8601SecondsZ]
  by_cases hz : host.now.microsecond = 0
  · have hdata : (isoformat host.now ++ "Z").data =
        (padNat 4 host.now.year).data ++ ('-' ::
        ((padNat 2 host.now.month).data ++ ('-' ::
        ((padNat 2 host.now.day).data ++ ('T' ::
        ((padNat 2 host.now.hour).data ++ (':' ::
        ((padNat 2 host.now.minute).data ++ (':' ::
        ((padNat 2 host.now.second).data ++ ['Z'])))))))))) := by
      simp [isoformat, hz, String.data_append]
    rw [hdata,
      digitsN_append h4 (padNat_digits 4 host.now.year)]
    simp only [Option.bind_some, Option.some_bind, expectC_cons,
      digitsN_append hmo2 (padNat_digits 2 host.now.month),
      digitsN_append hd2 (padNat_digits 2 host.now.day),
      digitsN_append hh2 (padNat_digits 2 host.now.hour),
      digitsN_append hmi2 (padNat_digits 2 host.now.minute),
      digitsN_append hs2 (padNat_digits 2 host.now.second)]
    decide
  · have hdata : (isoformat host.now ++ "Z").data =
        (padNat 4 host.now.year).data ++ ('-' ::
        ((padNat 2 host.now.month).data ++ ('-' ::
        ((padNat 2 host.now.day).data ++ ('T' ::
        ((padNat 2 host.now.hour).data ++ (':' ::
        ((padNat 2 host.now.minute).data ++ (':' ::
        ((padNat 2 host.now.second).data ++ ('.' ::
        ((padNat 6 host.now.microsecond).data ++ ['Z'])))))))))))) := by
      simp [isoformat, hz, String.data_append]
    rw [hdata,
      digitsN_append h4 (padNat_digits 4 host.now.year)]
    simp only [Option.bind_some, Option.some_bind, expectC_cons,
      digitsN_append hmo2 (padNat_digits 2 host.now.month),
      digitsN_append hd2 (padNat_digits 2 host.now.day),
      digitsN_append hh2 (padNat_digits 2 host.now.hour),
      digitsN_append hmi2 (padNat_digits 2 host.now.minute),
      digitsN_append hs2 (padNat_digits 2 host.now.second),
      digitsN_append hus6 (padNat_digits 6 host.now.microsecond)]
    simp

/-- C8 witness: the timestamp built from a concrete clock reading passes
the ISO-8601 shape check. -/
theorem collect_runtime_info_timestamp_witness :
    (collect_runtime_info sampleHost).timestamp_utc =
      isoformat sampleHost.now ++ "Z" ∧
    isIso8601SecondsZ ((collect_runtime_info sampleHost).timestamp_utc) =
      true :=
  collect_runtime_info_timestamp sampleHost (by decide) (by decide)
    (by decide) (by decide) (by decide) (by decide) (by decide)

/-- Concatenation is newline-free exactly when both parts are. -/
theorem noNL_append (s t : String) :
    noNL (s ++ t) = (noNL s && noNL t) := by
  simp [noNL, String.data_append, List.all_append]

/-- A decimal digit character is not a newline. -/
theorem isDigit_not_nl {c : Char} (h : c.isDigit = true) : (!(c = '\n')) = true := by
  rcases Decidable.eq_or_ne c '\n' with he | he
  · subst he; simp at h
  · simp [he]

/-- `str(int)` contains no newline. -/
theorem noNL_pyInt (i : Int) : noNL (pyInt i) = true := by
  show (intLit i).all (fun c => !(c = '\n')) = true
  rw [List.all_eq_true]
  intro c hc
  have hdig := natLit_all_digits
  rw [intLit] at hc
  split at hc
  · rcases List.mem_cons.mp hc with h | h
    · subst h; decide
    · exact isDigit_not_nl (List.all_eq_true.mp (hdig i.natAbs) c h)
  · exact isDigit_not_nl (List.all_eq_true.mp (hdig i.toNat) c hc)

/-- Zero-padded decimals contain no newline. -/
theorem noNL_padNat (w n : Nat) : noNL (padNat w n) = true := by
  show (padNat w n).data.all (fun c => !(c = '\n')) = true
  rw [List.all_eq_true]
  intro c hc
  exact isDigit_not_nl
    (List.all_eq_true.mp (padNat_digits w n) c hc)

/-- `isoformat` output contains no newline. -/
theorem noNL_isoformat (t : PyDatetime) : noNL (isoformat t) = true := by
  rw [isoformat]
  split <;> simp [noNL_append, noNL_padNat] <;> decide

/-- Optional-int rendering contains no newline. -/
theorem noNL_pyOptInt (o : Option Int) : noNL (pyOptInt o) = true := by
  cases o with
  | none => decide
  | some i => exact noNL_pyInt i

/-- Bool rendering contains no newline. -/
theorem noNL_pyBool (b : Bool) : noNL (pyBool b) = true := by
  cases b <;> decide

/-- Optional-string rendering contains no newline when the payload does
not. -/
theorem noNL_pyOptStr {o : Option String}
    (h : ∀ s, o = some s → noNL s = true) : noNL (pyOptStr o) = true := by
  cases o with
  | none => decide
  | some s => exact h s rfl

/-- A device line contains no newline when its name and samplerate repr do
not. -/
theorem noNL_deviceLine (d : DeviceInfo)
    (hn : ∀ s, d.name = some s → noNL s = true)
    (hr : ∀ s, d.default_samplerate = some s → noNL s = true) :
    noNL (deviceLine d) = true := by
  rw [deviceLine]
  simp [noNL_append, noNL_pyInt, noNL_pyOptInt, noNL_pyOptStr hn,
    noNL_pyOptStr hr]
  decide

/-- `'\n'.join` at the character level. -/
theorem joinLines_data :
    ∀ ls : List String, (joinLines ls).data = joinNL (ls.map String.data) := by
  intro ls
  induction ls with
  | nil => rfl
  | cons l ls ih =>
    cases ls with
    | nil => rfl
    | cons l2 ls2 =>
      show (l ++ "\n" ++ joinLines (l2 :: ls2)).data = _
      simp only [String.data_append, List.map_cons]
      rw [ih]
      have hj : joinNL (l.data :: l2.data :: List.map String.data ls2) =
          l.data ++ '\n' :: joinNL (l2.data :: List.map String.data ls2) :=
        rfl
      rw [hj]
      simp

/-- Splitting a newline-free line gives back that single line. -/
theorem splitNL_no_nl :
    ∀ l : List Char, (∀ c ∈ l, ¬ c = '\n') → splitNL l = [l] := by
  intro l
  induction l with
  | nil => intro _; rfl
  | cons c cs ih =>
    intro h
    have hc : ¬ c = '\n' := h c (List.mem_cons_self c cs)
    rw [splitNL, if_neg hc, ih fun x hx => h x (List.mem_cons_of_mem c hx)]

/-- Splitting a newline-free line glued onto a newline and a rest. -/
theorem splitNL_append_line :
    ∀ (l rest : List Char), (∀ c ∈ l, ¬ c = '\n') →
      splitNL (l ++ '\n' :: rest) = l :: splitNL rest := by
  intro l
  induction l with
  | nil =>
    intro rest _
    show splitNL ('\n' :: rest) = [] :: splitNL rest
    rw [splitNL, if_pos rfl]
  | cons c cs ih =>
    intro rest h
    have hc : ¬ c = '\n' := h c (List.mem_cons_self c cs)
    show splitNL (c :: (cs ++ '\n' :: rest)) = (c :: cs) :: splitNL rest
    rw [splitNL, if_neg hc,
      ih rest fun x hx => h x (List.mem_cons_of_mem c hx)]

/-- `splitNL` is a left inverse of `joinNL` on nonempty lists of
newline-free lines. -/
theorem splitNL_joinNL :
    ∀ lss : List (List Char), lss ≠ [] →
      (∀ l ∈ lss, ∀ c ∈ l, ¬ c = '\n') → splitNL (joinNL lss) = lss := by
  intro lss
  induction lss with
  | nil => intro h _; exact absurd rfl h
  | cons l rest ih =>
    intro _ h
    cases rest with
    | nil =>
      show splitNL l = [l]
      exact splitNL_no_nl l (h l (List.mem_cons_self l []))
    | cons l2 rest2 =>
      show splitNL (l ++ '\n' :: joinNL (l2 :: rest2)) = l :: l2 :: rest2
      rw [splitNL_append_line l _ (h l (List.mem_cons_self l _)),
        ih (by simp) fun x hx => h x (List.mem_cons_of_mem l hx)]

/-- C10: for a report built on a host whose strings contain no newline,
the text-mode output splits into exactly 44 fixed lines plus one line per
audio device; the first line is the fixed title, and the five reflection
sub-lists contribute exactly 3, 3, 3, 3 and 2 bullet lines at their fixed
positions regardless of host environment. -/
theorem text_mode_line_count (cfg : AudioConfig) (host : Host) (p : String)
    (ds : List RawDevice) (r : Report)
    (hds : host.devices = .ok ds)
    (hok : build_report cfg host p = .ok r)
    (h1 : noNL host.python_version = true)
    (h2 : noNL host.executable = true)
    (h3 : noNL host.platform = true)
    (h4 : noNL host.cwd = true)
    (h5 : noNL p = true)
    (h6 : ∀ d ∈ ds, (∀ s, RawDevice.name d = some s → noNL s = true) ∧
      (∀ s, RawDevice.default_samplerate d = some s → noNL s = true)) :
    splitNL (render_text_report r).data = (textLines r).map String.data ∧
    (textLines r).length = 44 + ds.length ∧
    (textLines r).head? = some "Google Assistant SDK self-diagnostics" ∧
    ((textLines r).drop 4).take 3 =
      collect_reflection.philosophy.map bulletLine ∧
    ((textLines r).drop 8).take 3 =
      collect_reflection.existential_questions.map bulletLine ∧
    ((textLines r).drop 12).take 3 =
      collect_reflection.conversational_prompts.map bulletLine ∧
    ((textLines r).drop 16).take 3 =
      collect_reflection.learning_notes.map bulletLine ∧
    ((textLines r).drop 20).take 2 =
      collect_reflection.grounding.map bulletLine ∧
    collect_reflection.philosophy.length = 3 ∧
    collect_reflection.existential_questions.length = 3 ∧
    collect_reflection.conversational_prompts.length = 3 ∧
    collect_reflection.learning_notes.length = 3 ∧
    collect_reflection.grounding.length = 2 := by
  have hbr : build_report cfg host p = .ok
      { runtime := collect_runtime_info host
        audio_defaults := collect_audio_defaults cfg host
        audio_devices := collect_audio_devices ds
        credentials := collect_credentials_status host p
        reflection := collect_reflection } := by
    simp [build_report, hds]
  rw [hbr] at hok
  have hr : r = { runtime := collect_runtime_info host
                  audio_defaults := collect_audio_defaults cfg host
                  audio_devices := collect_audio_devices ds
                  credentials := collect_credentials_status host p
                  reflection := collect_reflection } :=
    (Except.ok.inj hok).symm
  subst hr
  have hdev : (List.map deviceLine (collect_audio_devices ds)).all noNL =
      true := by
    rw [List.all_eq_true]
    intro x hx
    rw [collect_audio_devices] at hx
    rcases List.mem_map.mp hx with ⟨di, hdi, rfl⟩
    rcases List.mem_map.mp hdi with ⟨pr, hpr, rfl⟩
    have hmem : pr.2 ∈ ds := by
      have hsnd := List.enum_map_snd ds
      rw [← hsnd]
      exact List.mem_map_of_mem Prod.snd hpr
    exact noNL_deviceLine _ (fun s hs => (h6 pr.2 hmem).1 s hs)
      (fun s hs => (h6 pr.2 hmem).2 s hs)
  have hall2 : (textLines
      { runtime := collect_runtime_info host
        audio_defaults := collect_audio_defaults cfg host
        audio_devices := collect_audio_devices ds
        credentials := collect_credentials_status host p
        reflection := collect_reflection }).all noNL = true := by
    rw [textLines]
    rw [List.all_append, hdev, Bool.and_true]
    simp only [List.all_append, List.all_cons, List.all_nil,
      Bool.and_eq_true, Bool.and_true, and_true, true_and]
    repeat' apply And.intro
    all_goals
      try simp only [collect_runtime_info, collect_audio_defaults,
        collect_credentials_status, noNL_append, noNL_isoformat,
        noNL_pyInt, noNL_pyOptInt, noNL_pyBool, h1, h2, h3, h4, h5,
        Bool.and_eq_true, Bool.and_true, Bool.true_and, and_true, true_and]
    all_goals decide
  refine ⟨?_, ?_, rfl, rfl, rfl, rfl, rfl, rfl, rfl, rfl, rfl, rfl, rfl⟩
  · rw [render_text_report, joinLines_data]
    apply splitNL_joinNL
    · simp [textLines]
    · intro l hl c hc
      rcases List.mem_map.mp hl with ⟨s, hsmem, rfl⟩
      have hno := List.all_eq_true.mp hall2 s hsmem
      rw [noNL, List.all_eq_true] at hno
      have := hno c hc
      simpa using this
  · rw [textLines]
    simp [collect_audio_devices, collect_reflection, List.enum_length]
    omega

/-- C10 witness: on a concrete host with one audio device the text output
has 44 + 1 lines, opens with the fixed title and the bullet counts are as
stated. -/
theorem text_mode_line_count_witness :
    splitNL (render_text_report sampleReport).data =
      (textLines sampleReport).map String.data ∧
    (textLines sampleReport).length = 44 + 1 ∧
    (textLines sampleReport).head? =
      some "Google Assistant SDK self-diagnostics" ∧
    ((textLines sampleReport).drop 4).take 3 =
      collect_reflection.philosophy.map bulletLine ∧
    ((textLines sampleReport).drop 20).take 2 =
      collect_reflection.grounding.map bulletLine := by
  have h6 : ∀ d ∈ [sampleDevice],
      (∀ s, RawDevice.name d = some s → noNL s = true) ∧
      (∀ s, RawDevice.default_samplerate d = some s → noNL s = true) := by
    intro d hd
    rcases List.mem_singleton.mp hd with rfl
    refine ⟨fun s hs => ?_, fun s hs => ?_⟩ <;>
      · have he := Option.some.inj hs
        subst he
        decide
  have h := text_mode_line_count sampleConfig sampleHost
    "/nonexistent/path" [sampleDevice] sampleReport rfl rfl
    (by decide) (by decide) (by decide) (by decide) (by decide) h6
  exact ⟨h.1, h.2.1, h.2.2.1, h.2.2.2.1, h.2.2.2.2.2.2.2.1⟩

/-- Characters are equal exactly when their code points are. -/
theorem char_eq_iff_toNat {c d : Char} : c = d ↔ c.toNat = d.toNat :=
  ⟨fun h => congrArg Char.toNat h, fun h => Char.ext (UInt32.ext h)⟩

/-- `String.mk` undoes `String.data`. -/
theorem stringMk_data (s : String) : String.mk s.data = s := rfl

/-- Reading back a hexadecimal digit character recovers its value. -/
theorem hexVal_digitChar {d : Nat} (h : d < 16) :
    hexVal? (Nat.digitChar d) = some d := by
  interval_cases d <;> decide

/-- Reading back the four hex digits of a code unit recovers it. -/
theorem parseHex4_hex4 {t : Nat} (h : t < 0x10000) :
    parseHex4 (Nat.digitChar (t / 4096 % 16)) (Nat.digitChar (t / 256 % 16))
      (Nat.digitChar (t / 16 % 16)) (Nat.digitChar (t % 16)) = some t := by
  rw [parseHex4, hexVal_digitChar (Nat.mod_lt _ (by norm_num)),
    hexVal_digitChar (Nat.mod_lt _ (by norm_num)),
    hexVal_digitChar (Nat.mod_lt _ (by norm_num)),
    hexVal_digitChar (Nat.mod_lt _ (by norm_num))]
  show some _ = some t
  congr 1
  omega

set_option maxHeartbeats 1600000 in
/-- Reduction of the string parser on a `\uXXXX` escape head denoting a
basic-plane character. -/
theorem parseStr_u_bmp (a b c d : Char) (r : List Char) (t : Nat)
    (hhex : parseHex4 a b c d = some t) (ht1 : ¬(0xD800 ≤ t ∧ t < 0xDC00))
    (ht2 : ¬(0xDC00 ≤ t ∧ t < 0xE000)) :
    parseStr ('\\' :: 'u' :: a :: b :: c :: d :: r) =
      (parseStr r).map fun p => (Char.ofNat t :: p.1, p.2) := by
  rw [parseStr.eq_def]
  simp only [hhex]
  rw [if_neg ht1, if_neg ht2]

set_option maxHeartbeats 1600000 in
/-- Reduction of the string parser on a surrogate pair of `\uXXXX`
escapes. -/
theorem parseStr_u_astral (a b c d e f g h2 : Char) (r : List Char)
    (t u : Nat)
    (hhex1 : parseHex4 a b c d = some t)
    (hhex2 : parseHex4 e f g h2 = some u)
    (ht : 0xD800 ≤ t ∧ t < 0xDC00) (hu : 0xDC00 ≤ u ∧ u < 0xE000) :
    parseStr ('\\' :: 'u' :: a :: b :: c :: d ::
        '\\' :: 'u' :: e :: f :: g :: h2 :: r) =
      (parseStr r).map fun p =>
        (Char.ofNat (0x10000 + 0x400 * (t - 0xD800) + (u - 0xDC00))
          :: p.1, p.2) := by
  rw [parseStr.eq_def]
  simp only [hhex1]
  rw [if_pos ht]
  simp only [hhex2]
  rw [if_pos hu]

set_option maxHeartbeats 1600000 in
/-- Reduction of the string parser on an unescaped printable character. -/
theorem parseStr_plain (c : Char) (r : List Char) (h1 : ¬ c = '"')
    (h2 : ¬ c = '\\') (h3 : ¬ c.toNat < 0x20) :
    parseStr (c :: r) = (parseStr r).map fun p => (c :: p.1, p.2) := by
  rw [parseStr.eq_def]
  split
  · rename_i heq
    simp at heq
  · rename_i heq
    rw [List.cons.injEq] at heq
    exact absurd heq.1 h1
  · rename_i heq
    rw [List.cons.injEq] at heq
    exact absurd heq.1 h2
  · rename_i heq
    injection heq with hc hr
    subst hc
    subst hr
    rw [if_neg h3]

set_option maxHeartbeats 1600000 in
/-- The string parser undoes the `ensure_ascii` escaper: parsing the
escaped body followed by a closing quote recovers the original characters
and the rest of the input. -/
theorem parseStr_escList :
    ∀ (cs rest : List Char),
      parseStr (escList cs ++ '"' :: rest) = some (cs, rest) := by
  intro cs
  induction cs with
  | nil =>
    intro rest
    rfl
  | cons c cs ih =>
    intro rest
    rw [escList, List.append_assoc, escChar]
    by_cases h1 : c = '"'
    · subst h1
      rw [if_pos rfl]
      show (parseStr (escList cs ++ '"' :: rest)).map
        (fun p => ('"' :: p.1, p.2)) = _
      rw [ih]
      rfl
    rw [if_neg h1]
    by_cases h2 : c = '\\'
    · subst h2
      rw [if_pos rfl]
      show (parseStr (escList cs ++ '"' :: rest)).map
        (fun p => ('\\' :: p.1, p.2)) = _
      rw [ih]
      rfl
    rw [if_neg h2]
    by_cases h3 : c = '\n'
    · subst h3
      rw [if_pos rfl]
      show (parseStr (escList cs ++ '"' :: rest)).map
        (fun p => ('\n' :: p.1, p.2)) = _
      rw [ih]
      rfl
    rw [if_neg h3]
    by_cases h4 : c = '\r'
    · subst h4
      rw [if_pos rfl]
      show (parseStr (escList cs ++ '"' :: rest)).map
        (fun p => ('\r' :: p.1, p.2)) = _
      rw [ih]
      rfl
    rw [if_neg h4]
    by_cases h5 : c = '\t'
    · subst h5
      rw [if_pos rfl]
      show (parseStr (escList cs ++ '"' :: rest)).map
        (fun p => ('\t' :: p.1, p.2)) = _
      rw [ih]
      rfl
    rw [if_neg h5]
    by_cases h6 : c.toNat = 8
    · rw [if_pos h6]
      have hc : c = Char.ofNat 8 := by
        rw [char_eq_iff_toNat, h6]
        rfl
      show (parseStr (escList cs ++ '"' :: rest)).map
        (fun p => (Char.ofNat 8 :: p.1, p.2)) = _
      rw [ih, ← hc]
      rfl
    rw [if_neg h6]
    by_cases h7 : c.toNat = 12
    · rw [if_pos h7]
      have hc : c = Char.ofNat 12 := by
        rw [char_eq_iff_toNat, h7]
        rfl
      show (parseStr (escList cs ++ '"' :: rest)).map
        (fun p => (Char.ofNat 12 :: p.1, p.2)) = _
      rw [ih, ← hc]
      rfl
    rw [if_neg h7]
    have hval : c.toNat < 0xd800 ∨
        (0xe000 ≤ c.toNat ∧ c.toNat < 0x110000) := c.valid
    by_cases h8 : c.toNat < 0x20 || 0x7f ≤ c.toNat
    · rw [if_pos h8]
      by_cases h9 : c.toNat < 0x10000
      · rw [if_pos h9]
        simp only [hex4, List.cons_append, List.nil_append]
        rw [parseStr_u_bmp _ _ _ _ _ _ (parseHex4_hex4 h9)
          (by omega) (by omega)]
        rw [ih]
        simp [Char.ofNat_toNat]
      · rw [if_neg h9]
        simp only [hex4, List.cons_append, List.nil_append,
          List.append_assoc]
        rw [parseStr_u_astral _ _ _ _ _ _ _ _ _ _ _
          (parseHex4_hex4 (by omega)) (parseHex4_hex4 (by omega))
          (by omega) (by omega)]
        rw [ih]
        have harg : 0x10000 +
            0x400 * (0xd800 + (c.toNat - 0x10000) / 0x400 - 0xd800) +
            (0xdc00 + (c.toNat - 0x10000) % 0x400 - 0xdc00) = c.toNat := by
          omega
        rw [harg]
        simp [Char.ofNat_toNat]
    · rw [if_neg h8]
      rw [List.singleton_append,
        parseStr_plain c _ h1 h2 (by simp at h8; omega)]
      rw [ih]
      rfl

/-- `skipWs` keeps a non-whitespace head. -/
theorem skipWs_cons {c : Char} (l : List Char) (h : isWsChar c = false) :
    skipWs (c :: l) = c :: l := by
  rw [skipWs, List.dropWhile_cons_of_neg (by simp [h])]

/-- `skipWs` drops a leading newline. -/
theorem skipWs_nl (l : List Char) : skipWs ('\n' :: l) = skipWs l := by
  rw [skipWs, List.dropWhile_cons_of_pos (by decide)]
  rfl

/-- `skipWs` drops leading spaces. -/
theorem skipWs_spaces :
    ∀ (n : Nat) (l : List Char),
      skipWs (List.replicate n ' ' ++ l) = skipWs l := by
  intro n
  induction n with
  | zero => intro l; rfl
  | succ m ih =>
    intro l
    rw [List.replicate_succ, List.cons_append, skipWs,
      List.dropWhile_cons_of_pos (by decide)]
    exact ih l

/-- `skipWs` drops an indent prefix. -/
theorem skipWs_indent (lvl : Nat) (l : List Char) :
    skipWs (indentChars lvl ++ l) = skipWs l :=
  skipWs_spaces (2 * lvl) l

/-- Facts about a character that can start a numeric literal. -/
theorem numStart_facts {c : Char} (hc : (c.isDigit || c = '-') = true) :
    isWsChar c = false ∧ ¬ c = ']' ∧ ¬ c = '}' ∧ ¬ c = ',' ∧
      isNumChar c = true := by
  have hc2 : c.isDigit = true ∨ c = '-' := by simpa using hc
  rcases hc2 with hd | he
  · refine ⟨?_, ?_, ?_, ?_, ?_⟩
    · cases hws : isWsChar c
      · rfl
      · have : ((c = ' ' ∨ c = '\n') ∨ c = '\t') ∨ c = '\r' := by
          simpa [isWsChar] using hws
        rcases this with ((h | h) | h) | h <;> subst h <;>
          exact absurd hd (by decide)
    · intro he2; subst he2; exact absurd hd (by decide)
    · intro he2; subst he2; exact absurd hd (by decide)
    · intro he2; subst he2; exact absurd hd (by decide)
    · rw [isNumChar, hd]; rfl
  · subst he
    refine ⟨rfl, by decide, by decide, by decide, by decide⟩

/-- Every nonempty render starts with a character that is not whitespace,
not a closing bracket or brace, and not a comma. -/
theorem renderJ_head (j : JVal) (lvl : Nat) (hwf : wfJ j = true) :
    ∃ c t, renderJ lvl j = c :: t ∧ isWsChar c = false ∧ ¬ c = ']' ∧
      ¬ c = '}' ∧ ¬ c = ',' := by
  cases j with
  | jnull => exact ⟨'n', _, rfl, by decide, by decide, by decide, by decide⟩
  | jbool b =>
    cases b with
    | true => exact ⟨'t', _, rfl, by decide, by decide, by decide, by decide⟩
    | false => exact ⟨'f', _, rfl, by decide, by decide, by decide, by decide⟩
  | jnum tok =>
    rw [wfJ, wfNumTok] at hwf
    simp only [Bool.and_eq_true] at hwf
    obtain ⟨⟨h1, _⟩, h2⟩ := hwf
    cases htok : tok.data with
    | nil =>
      rw [htok] at h1
      simp at h1
    | cons c t =>
      rw [htok] at h2
      simp only [List.head?_cons, Option.any_some] at h2
      have hf := numStart_facts h2
      exact ⟨c, t, by rw [renderJ, htok], hf.1, hf.2.1, hf.2.2.1,
        hf.2.2.2.1⟩
  | jstr s => exact ⟨'"', _, rfl, by decide, by decide, by decide, by decide⟩
  | jarr xs =>
    cases xs with
    | nil => exact ⟨'[', _, rfl, by decide, by decide, by decide, by decide⟩
    | cons x xs =>
      exact ⟨'[', _, rfl, by decide, by decide, by decide, by decide⟩
  | jobj kvs =>
    cases kvs with
    | nil => exact ⟨'{', _, rfl, by decide, by decide, by decide, by decide⟩
    | cons kv kvs =>
      exact ⟨'{', _, rfl, by decide, by decide, by decide, by decide⟩

/-- The text following a value inside an array never extends a numeric
token. -/
theorem headNotNum_arrRest (lvl : Nat) (xs : List JVal)
    (rest : List Char) :
    headNotNum (renderArrRest lvl xs ++ '\n' :: rest) := by
  cases xs with
  | nil => show isNumChar '\n' = false; decide
  | cons x xs => show isNumChar ',' = false; decide

/-- The text following a value inside an object never extends a numeric
token. -/
theorem headNotNum_objRest (lvl : Nat) (kvs : List (String × JVal))
    (rest : List Char) :
    headNotNum (renderObjRest lvl kvs ++ '\n' :: rest) := by
  cases kvs with
  | nil => show isNumChar '\n' = false; decide
  | cons kv kvs => show isNumChar ',' = false; decide

/-- Maximal-munch lexing of a numeric token stops exactly at its end. -/
theorem numTok_munch :
    ∀ (tok rest : List Char), tok.all isNumChar = true → headNotNum rest →
      (tok ++ rest).takeWhile isNumChar = tok ∧
      (tok ++ rest).dropWhile isNumChar = rest := by
  intro tok
  induction tok with
  | nil =>
    intro rest _ hrest
    cases rest with
    | nil => exact ⟨rfl, rfl⟩
    | cons c l =>
      have hc : isNumChar c = false := hrest
      constructor
      · rw [List.nil_append, List.takeWhile_cons_of_neg (by simp [hc])]
      · rw [List.nil_append, List.dropWhile_cons_of_neg (by simp [hc])]
  | cons t ts ih =>
    intro rest hall hrest
    simp only [List.all_cons, Bool.and_eq_true] at hall
    obtain ⟨h1, h2⟩ := hall
    rcases ih rest h2 hrest with ⟨ihtake, ihdrop⟩
    constructor
    · rw [List.cons_append, List.takeWhile_cons_of_pos (by simp [h1]),
        ihtake]
    · rw [List.cons_append, List.dropWhile_cons_of_pos (by simp [h1]),
        ihdrop]

/-- Every value needs at least one unit of parser fuel. -/
theorem jsize_pos : ∀ j : JVal, 1 ≤ jsize j := by
  intro j
  cases j with
  | jnull => simp [jsize]
  | jbool b => simp [jsize]
  | jnum t => simp [jsize]
  | jstr s => simp [jsize]
  | jarr xs => rw [jsize]; omega
  | jobj kvs => rw [jsize]; omega

/-- `skipWs` drops a leading space. -/
theorem skipWs_space (l : List Char) : skipWs (' ' :: l) = skipWs l := by
  rw [skipWs, List.dropWhile_cons_of_pos (by decide)]
  rfl

/-- Arrays need at least one unit of parser fuel. -/
theorem jsizeArr_pos : ∀ xs : List JVal, 1 ≤ jsizeArr xs := by
  intro xs
  cases xs with
  | nil => simp [jsizeArr]
  | cons x xs => rw [jsizeArr]; have := jsize_pos x; omega

/-- Objects need at least one unit of parser fuel. -/
theorem jsizeObj_pos : ∀ kvs : List (String × JVal), 1 ≤ jsizeObj kvs := by
  intro kvs
  cases kvs with
  | nil => simp [jsizeObj]
  | cons kv kvs => rw [jsizeObj]; have := jsize_pos kv.2; omega

/-- Parser reduction: `null` literal. -/
theorem parseJ_red_null (f : Nat) (rest : List Char) :
    parseJ (f + 1) ('n' :: 'u' :: 'l' :: 'l' :: rest) =
      some (.jnull, rest) := rfl

/-- Parser reduction: `true` literal. -/
theorem parseJ_red_true (f : Nat) (rest : List Char) :
    parseJ (f + 1) ('t' :: 'r' :: 'u' :: 'e' :: rest) =
      some (.jbool true, rest) := rfl

/-- Parser reduction: `false` literal. -/
theorem parseJ_red_false (f : Nat) (rest : List Char) :
    parseJ (f + 1) ('f' :: 'a' :: 'l' :: 's' :: 'e' :: rest) =
      some (.jbool false, rest) := rfl

/-- Parser reduction: string literal. -/
theorem parseJ_red_str (f : Nat) (rest : List Char) :
    parseJ (f + 1) ('"' :: rest) =
      (parseStr rest).map fun p => (.jstr (String.mk p.1), p.2) := rfl

/-- Parser reduction: array opener. -/
theorem parseJ_red_arr (f : Nat) (r : List Char) :
    parseJ (f + 1) ('[' :: r) =
      match skipWs r with
      | ']' :: r2 => some (.jarr [], r2)
      | r2 => (parseJ f r2).bind fun p =>
          (parseArrRest f p.2).map fun q => (.jarr (p.1 :: q.1), q.2) := rfl

/-- Parser reduction: object opener. -/
theorem parseJ_red_obj (f : Nat) (r : List Char) :
    parseJ (f + 1) ('{' :: r) =
      match skipWs r with
      | '}' :: r2 => some (.jobj [], r2)
      | r2 => (parseMember f r2).bind fun p =>
          (parseObjRest f p.2).map fun q => (.jobj (p.1 :: q.1), q.2) := rfl

/-- Parser reduction: object member. -/
theorem parseMember_red (f : Nat) (rest : List Char) :
    parseMember (f + 1) ('"' :: rest) =
      (parseStr rest).bind fun p =>
        match skipWs p.2 with
        | ':' :: r =>
          (parseJ f (skipWs r)).map fun q => ((String.mk p.1, q.1), q.2)
        | _ => none := rfl

/-- Parser reduction: array continuation. -/
theorem parseArrRest_red (f : Nat) (cs : List Char) :
    parseArrRest (f + 1) cs =
      match skipWs cs with
      | ']' :: r => some ([], r)
      | ',' :: r =>
        (parseJ f (skipWs r)).bind fun p =>
          (parseArrRest f p.2).map fun q => (p.1 :: q.1, q.2)
      | _ => none := rfl

/-- Parser reduction: object continuation. -/
theorem parseObjRest_red (f : Nat) (cs : List Char) :
    parseObjRest (f + 1) cs =
      match skipWs cs with
      | '}' :: r => some ([], r)
      | ',' :: r =>
        (parseMember f (skipWs r)).bind fun p =>
          (parseObjRest f p.2).map fun q => (p.1 :: q.1, q.2)
      | _ => none := rfl

set_option maxHeartbeats 1600000 in
/-- Parser reduction: numeric literal (maximal munch). -/
theorem parseJ_red_num (fuel : Nat) (c : Char) (r : List Char)
    (hc : (c.isDigit || c = '-') = true) :
    parseJ (fuel + 1) (c :: r) =
      some (.jnum (String.mk (c :: r.takeWhile isNumChar)),
        r.dropWhile isNumChar) := by
  rw [parseJ.eq_def]
  split
  · rename_i heq
    exact absurd heq (by omega)
  rename_i f2 heq2
  split
  · rename_i heq
    rw [List.cons.injEq] at heq
    exact absurd hc (by rw [heq.1]; decide)
  · rename_i heq
    rw [List.cons.injEq] at heq
    exact absurd hc (by rw [heq.1]; decide)
  · rename_i heq
    rw [List.cons.injEq] at heq
    exact absurd hc (by rw [heq.1]; decide)
  · rename_i heq
    rw [List.cons.injEq] at heq
    exact absurd hc (by rw [heq.1]; decide)
  · rename_i heq
    rw [List.cons.injEq] at heq
    exact absurd hc (by rw [heq.1]; decide)
  · rename_i heq
    rw [List.cons.injEq] at heq
    exact absurd hc (by rw [heq.1]; decide)
  · rename_i heq
    injection heq with h1 h2
    subst h1
    subst h2
    rw [if_pos (numStart_facts hc).2.2.2.2]
  · rename_i heq
    simp at heq


/-- Parser reduction: array closed immediately after skipping
whitespace. -/
theorem parseJ_red_arr_close (f : Nat) (r r2 : List Char)
    (hsk : skipWs r = ']' :: r2) :
    parseJ (f + 1) ('[' :: r) = some (.jarr [], r2) := by
  rw [parseJ_red_arr f, hsk]
  rfl

/-- Parser reduction: array with a first element whose render does not
start with a closing bracket. -/
theorem parseJ_red_arr_cons (f : Nat) (r : List Char) (c0 : Char)
    (t0 : List Char) (hsk : skipWs r = c0 :: t0) (hne : ¬ c0 = ']') :
    parseJ (f + 1) ('[' :: r) =
      (parseJ f (c0 :: t0)).bind fun p =>
        (parseArrRest f p.2).map fun q => (.jarr (p.1 :: q.1), q.2) := by
  rw [parseJ_red_arr f, hsk]
  split
  · rename_i heq
    rw [List.cons.injEq] at heq
    exact absurd heq.1 hne
  · rfl

/-- Parser reduction: object closed immediately after skipping
whitespace. -/
theorem parseJ_red_obj_close (f : Nat) (r r2 : List Char)
    (hsk : skipWs r = '}' :: r2) :
    parseJ (f + 1) ('{' :: r) = some (.jobj [], r2) := by
  rw [parseJ_red_obj f, hsk]
  rfl

/-- Parser reduction: object with a first member (key opens with a
quote). -/
theorem parseJ_red_obj_mem (f : Nat) (r r2 : List Char)
    (hsk : skipWs r = '"' :: r2) :
    parseJ (f + 1) ('{' :: r) =
      (parseMember f ('"' :: r2)).bind fun p =>
        (parseObjRest f p.2).map fun q => (.jobj (p.1 :: q.1), q.2) := by
  rw [parseJ_red_obj f, hsk]
  rfl

/-- Parser reduction: array continuation reaching the closing bracket. -/
theorem parseArrRest_red_close (f : Nat) (cs r : List Char)
    (hsk : skipWs cs = ']' :: r) :
    parseArrRest (f + 1) cs = some ([], r) := by
  rw [parseArrRest_red f, hsk]
  rfl

/-- Parser reduction: array continuation at a comma. -/
theorem parseArrRest_red_comma (f : Nat) (cs r : List Char)
    (hsk : skipWs cs = ',' :: r) :
    parseArrRest (f + 1) cs =
      (parseJ f (skipWs r)).bind fun p =>
        (parseArrRest f p.2).map fun q => (p.1 :: q.1, q.2) := by
  rw [parseArrRest_red f, hsk]
  rfl

/-- Parser reduction: object continuation reaching the closing brace. -/
theorem parseObjRest_red_close (f : Nat) (cs r : List Char)
    (hsk : skipWs cs = '}' :: r) :
    parseObjRest (f + 1) cs = some ([], r) := by
  rw [parseObjRest_red f, hsk]
  rfl

/-- Parser reduction: object continuation at a comma. -/
theorem parseObjRest_red_comma (f : Nat) (cs r : List Char)
    (hsk : skipWs cs = ',' :: r) :
    parseObjRest (f + 1) cs =
      (parseMember f (skipWs r)).bind fun p =>
        (parseObjRest f p.2).map fun q => (p.1 :: q.1, q.2) := by
  rw [parseObjRest_red f, hsk]
  rfl

/-- Parser reduction: member whose string part and colon are in place. -/
theorem parseMember_red_known (f : Nat)
    (rest content after r : List Char)
    (hps : parseStr rest = some (content, after))
    (hsk : skipWs after = ':' :: r) :
    parseMember (f + 1) ('"' :: rest) =
      (parseJ f (skipWs r)).map fun q =>
        ((String.mk content, q.1), q.2) := by
  rw [parseMember_red f, hps, Option.some_bind, hsk]
  rfl

mutual

/-- Parsing undoes rendering: a well-formed value serialized at any
nesting level, followed by input that cannot extend a numeric token, is
parsed back exactly, given enough fuel. -/
theorem parseJ_renderJ (j : JVal) (lvl : Nat) (rest : List Char)
    (fuel : Nat) (hwf : wfJ j = true) (hrest : headNotNum rest)
    (hfuel : jsize j ≤ fuel) :
    parseJ fuel (renderJ lvl j ++ rest) = some (j, rest) := by
  cases fuel with
  | zero =>
    have := jsize_pos j
    omega
  | succ f =>
    cases j with
    | jnull =>
      rw [renderJ]
      simp only [List.cons_append, List.nil_append]
      exact parseJ_red_null f rest
    | jbool b =>
      cases b with
      | true =>
        rw [renderJ]
        simp only [List.cons_append, List.nil_append]
        exact parseJ_red_true f rest
      | false =>
        rw [renderJ]
        simp only [List.cons_append, List.nil_append]
        exact parseJ_red_false f rest
    | jnum tok =>
      rw [renderJ]
      rw [wfJ, wfNumTok] at hwf
      simp only [Bool.and_eq_true] at hwf
      obtain ⟨⟨hne, hall⟩, hhead⟩ := hwf
      cases htok : tok.data with
      | nil => rw [htok] at hne; simp at hne
      | cons c t =>
        rw [htok] at hhead hall
        simp only [List.head?_cons, Option.any_some] at hhead
        simp only [List.all_cons, Bool.and_eq_true] at hall
        simp only [List.cons_append]
        rw [parseJ_red_num f c (t ++ rest) hhead]
        obtain ⟨htake, hdrop⟩ := numTok_munch t rest hall.2 hrest
        rw [htake, hdrop]
        have hmk : String.mk (c :: t) = tok := by
          rw [← htok]
        rw [hmk]
    | jstr s =>
      rw [renderJ, quoteStr]
      simp only [List.cons_append, List.nil_append, List.append_assoc,
        List.singleton_append]
      rw [parseJ_red_str f, parseStr_escList]
      rfl
    | jarr xs =>
      cases xs with
      | nil =>
        rw [renderJ]
        simp only [List.cons_append, List.nil_append]
        exact parseJ_red_arr_close f _ rest (skipWs_cons _ (by decide))
      | cons x xs2 =>
        rw [wfJ, wfArr, Bool.and_eq_true] at hwf
        obtain ⟨hwx, hwxs⟩ := hwf
        rw [jsize, jsizeArr] at hfuel
        rcases renderJ_head x (lvl + 1) hwx with
          ⟨c0, t0, hx, hws0, hne1, hne2, hne3⟩
        rw [renderJ]
        simp only [List.cons_append, List.nil_append, List.append_assoc,
          List.singleton_append]
        have hsk : skipWs ('\n' :: (indentChars (lvl + 1) ++
            (renderJ (lvl + 1) x ++ (renderArrRest (lvl + 1) xs2 ++
              '\n' :: (indentChars lvl ++ ']' :: rest))))) =
            c0 :: (t0 ++ (renderArrRest (lvl + 1) xs2 ++
              '\n' :: (indentChars lvl ++ ']' :: rest))) := by
          rw [skipWs_nl, skipWs_indent, hx, List.cons_append,
            skipWs_cons _ hws0]
        rw [parseJ_red_arr_cons f _ c0 _ hsk hne1]
        have hxeq : c0 :: (t0 ++ (renderArrRest (lvl + 1) xs2 ++
            '\n' :: (indentChars lvl ++ ']' :: rest))) =
            renderJ (lvl + 1) x ++ (renderArrRest (lvl + 1) xs2 ++
              '\n' :: (indentChars lvl ++ ']' :: rest)) := by
          rw [hx, List.cons_append]
        rw [hxeq]
        rw [parseJ_renderJ x (lvl + 1) _ f hwx
          (headNotNum_arrRest (lvl + 1) xs2 _) (by omega)]
        rw [Option.some_bind]
        rw [parseArrRest_renderArrRest xs2 lvl (lvl + 1) rest f hwxs
          (by omega)]
        rfl
    | jobj kvs =>
      cases kvs with
      | nil =>
        rw [renderJ]
        simp only [List.cons_append, List.nil_append]
        exact parseJ_red_obj_close f _ rest (skipWs_cons _ (by decide))
      | cons kv kvs2 =>
        rw [wfJ, wfMembers, Bool.and_eq_true] at hwf
        obtain ⟨hwv, hwkvs⟩ := hwf
        rw [jsize, jsizeObj] at hfuel
        rw [renderJ, renderMember, quoteStr]
        simp only [List.cons_append, List.nil_append, List.append_assoc,
          List.singleton_append]
        have hsk : skipWs ('\n' :: (indentChars (lvl + 1) ++
            ('"' :: (escList kv.1.data ++ '"' :: ':' :: ' ' ::
              (renderJ (lvl + 1) kv.2 ++ (renderObjRest (lvl + 1) kvs2 ++
                '\n' :: (indentChars lvl ++ '}' :: rest))))))) =
            '"' :: (escList kv.1.data ++ '"' :: ':' :: ' ' ::
              (renderJ (lvl + 1) kv.2 ++ (renderObjRest (lvl + 1) kvs2 ++
                '\n' :: (indentChars lvl ++ '}' :: rest)))) := by
          rw [skipWs_nl, skipWs_indent, skipWs_cons _ (by decide)]
        rw [parseJ_red_obj_mem f _ _ hsk]
        have hm := parseMember_renderMember kv (lvl + 1)
          (renderObjRest (lvl + 1) kvs2 ++
            '\n' :: (indentChars lvl ++ '}' :: rest)) f hwv
          (headNotNum_objRest (lvl + 1) kvs2 _) (by omega)
        rw [renderMember, quoteStr] at hm
        simp only [List.cons_append, List.nil_append, List.append_assoc,
          List.singleton_append] at hm
        rw [hm, Option.some_bind]
        rw [parseObjRest_renderObjRest kvs2 lvl (lvl + 1) rest f hwkvs
          (by omega)]
        rfl

/-- Parsing undoes rendering for the remainder of an array. -/
theorem parseArrRest_renderArrRest (xs : List JVal) (lvl lvl2 : Nat)
    (rest : List Char) (fuel : Nat) (hwf : wfArr xs = true)
    (hfuel : jsizeArr xs ≤ fuel) :
    parseArrRest fuel (renderArrRest lvl2 xs ++
      '\n' :: (indentChars lvl ++ ']' :: rest)) = some (xs, rest) := by
  cases fuel with
  | zero =>
    have := jsizeArr_pos xs
    omega
  | succ f =>
    cases xs with
    | nil =>
      rw [renderArrRest, List.nil_append]
      exact parseArrRest_red_close f _ rest
        (by rw [skipWs_nl, skipWs_indent, skipWs_cons _ (by decide)])
    | cons x xs2 =>
      rw [wfArr, Bool.and_eq_true] at hwf
      obtain ⟨hwx, hwxs⟩ := hwf
      rw [jsizeArr] at hfuel
      rcases renderJ_head x lvl2 hwx with ⟨c0, t0, hx, hws0, _, _, _⟩
      rw [renderArrRest]
      simp only [List.cons_append, List.nil_append, List.append_assoc,
        List.singleton_append]
      rw [parseArrRest_red_comma f _ _ (skipWs_cons _ (by decide))]
      have hsk : skipWs ('\n' :: (indentChars lvl2 ++
          (renderJ lvl2 x ++ (renderArrRest lvl2 xs2 ++
            '\n' :: (indentChars lvl ++ ']' :: rest))))) =
          renderJ lvl2 x ++ (renderArrRest lvl2 xs2 ++
            '\n' :: (indentChars lvl ++ ']' :: rest)) := by
        rw [skipWs_nl, skipWs_indent, hx, List.cons_append,
          skipWs_cons _ hws0]
      rw [hsk]
      rw [parseJ_renderJ x lvl2 _ f hwx
        (headNotNum_arrRest lvl2 xs2 _) (by omega)]
      rw [Option.some_bind]
      rw [parseArrRest_renderArrRest xs2 lvl lvl2 rest f hwxs (by omega)]
      rfl

/-- Parsing undoes rendering for one object member. -/
theorem parseMember_renderMember (kv : String × JVal) (lvl : Nat)
    (rest : List Char) (fuel : Nat) (hwf : wfJ kv.2 = true)
    (hrest : headNotNum rest) (hfuel : 1 + jsize kv.2 ≤ fuel) :
    parseMember fuel (renderMember lvl kv ++ rest) = some (kv, rest) := by
  obtain ⟨k, v⟩ := kv
  cases fuel with
  | zero => omega
  | succ f =>
    have hfuel2 : 1 + jsize v ≤ f + 1 := hfuel
    rcases renderJ_head v lvl hwf with ⟨c0, t0, hx, hws0, _, _, _⟩
    rw [renderMember, quoteStr]
    simp only [List.cons_append, List.nil_append, List.append_assoc,
      List.singleton_append]
    rw [parseMember_red_known f _ _ _ _
      (parseStr_escList k.data (':' :: ' ' :: (renderJ lvl v ++ rest)))
      (skipWs_cons _ (by decide))]
    have hsk : skipWs (' ' :: (renderJ lvl v ++ rest)) =
        renderJ lvl v ++ rest := by
      rw [skipWs_space, hx, List.cons_append, skipWs_cons _ hws0]
    rw [hsk]
    rw [parseJ_renderJ v lvl rest f hwf hrest (by omega)]
    rfl

/-- Parsing undoes rendering for the remainder of an object. -/
theorem parseObjRest_renderObjRest (kvs : List (String × JVal))
    (lvl lvl2 : Nat) (rest : List Char) (fuel : Nat)
    (hwf : wfMembers kvs = true) (hfuel : jsizeObj kvs ≤ fuel) :
    parseObjRest fuel (renderObjRest lvl2 kvs ++
      '\n' :: (indentChars lvl ++ '}' :: rest)) = some (kvs, rest) := by
  cases fuel with
  | zero =>
    have := jsizeObj_pos kvs
    omega
  | succ f =>
    cases kvs with
    | nil =>
      rw [renderObjRest, List.nil_append]
      exact parseObjRest_red_close f _ rest
        (by rw [skipWs_nl, skipWs_indent, skipWs_cons _ (by decide)])
    | cons kv kvs2 =>
      rw [wfMembers, Bool.and_eq_true] at hwf
      obtain ⟨hwv, hwkvs⟩ := hwf
      rw [jsizeObj] at hfuel
      rw [renderObjRest, renderMember, quoteStr]
      simp only [List.cons_append, List.nil_append, List.append_assoc,
        List.singleton_append]
      rw [parseObjRest_red_comma f _ _ (skipWs_cons _ (by decide))]
      have hsk : skipWs ('\n' :: (indentChars lvl2 ++
          ('"' :: (escList kv.1.data ++ '"' :: ':' :: ' ' ::
            (renderJ lvl2 kv.2 ++ (renderObjRest lvl2 kvs2 ++
              '\n' :: (indentChars lvl ++ '}' :: rest))))))) =
          '"' :: (escList kv.1.data ++ '"' :: ':' :: ' ' ::
            (renderJ lvl2 kv.2 ++ (renderObjRest lvl2 kvs2 ++
              '\n' :: (indentChars lvl ++ '}' :: rest)))) := by
        rw [skipWs_nl, skipWs_indent, skipWs_cons _ (by decide)]
      rw [hsk]
      have hm := parseMember_renderMember kv lvl2
        (renderObjRest lvl2 kvs2 ++
          '\n' :: (indentChars lvl ++ '}' :: rest)) f hwv
        (headNotNum_objRest lvl2 kvs2 _) (by omega)
      rw [renderMember, quoteStr] at hm
      simp only [List.cons_append, List.nil_append, List.append_assoc,
        List.singleton_append] at hm
      rw [hm, Option.some_bind]
      rw [parseObjRest_renderObjRest kvs2 lvl lvl2 rest f hwkvs
        (by omega)]
      rfl

end

/-- Inserting a member with a well-formed value keeps the member list
well formed. -/
theorem wfMembers_insertKey (kv : String × JVal)
    (l : List (String × JVal)) (h1 : wfJ kv.2 = true)
    (h2 : wfMembers l = true) : wfMembers (insertKey kv l) = true := by
  induction l with
  | nil => simp [insertKey, wfMembers, h1]
  | cons kv2 rest ih =>
    rw [wfMembers, Bool.and_eq_true] at h2
    rw [insertKey]
    split
    · rw [wfMembers, h1, wfMembers, h2.1, h2.2]
      rfl
    · rw [wfMembers, h2.1, ih h2.2]
      rfl

/-- Sorting keeps a member list well formed. -/
theorem wfMembers_sortMembersByKey (l : List (String × JVal))
    (h : wfMembers l = true) :
    wfMembers (sortMembersByKey l) = true := by
  induction l with
  | nil => rfl
  | cons kv rest ih =>
    rw [wfMembers, Bool.and_eq_true] at h
    show wfMembers (insertKey kv (sortMembersByKey rest)) = true
    exact wfMembers_insertKey kv _ h.1 (ih h.2)

mutual

/-- Sorting keys preserves numeric-token well-formedness. -/
theorem wfJ_sortKeysRec (j : JVal) (h : wfJ j = true) :
    wfJ (sortKeysRec j) = true := by
  cases j with
  | jnull => rfl
  | jbool b => rfl
  | jnum t => exact h
  | jstr s => rfl
  | jarr xs =>
    rw [sortKeysRec, wfJ]
    rw [wfJ] at h
    exact wfArr_sortKeysArr xs h
  | jobj kvs =>
    rw [sortKeysRec, wfJ]
    rw [wfJ] at h
    exact wfMembers_sortMembersByKey _ (wfMembers_sortKeysMembers kvs h)

/-- Sorting keys preserves well-formedness of array elements. -/
theorem wfArr_sortKeysArr (xs : List JVal) (h : wfArr xs = true) :
    wfArr (sortKeysArr xs) = true := by
  cases xs with
  | nil => rfl
  | cons x xs2 =>
    rw [wfArr, Bool.and_eq_true] at h
    rw [sortKeysArr, wfArr, wfJ_sortKeysRec x h.1,
      wfArr_sortKeysArr xs2 h.2]
    rfl

/-- Sorting keys preserves well-formedness of member values. -/
theorem wfMembers_sortKeysMembers (kvs : List (String × JVal))
    (h : wfMembers kvs = true) :
    wfMembers (sortKeysMembers kvs) = true := by
  cases kvs with
  | nil => rfl
  | cons kv kvs2 =>
    rw [wfMembers, Bool.and_eq_true] at h
    rw [sortKeysMembers, wfMembers]
    show (wfJ (sortKeysRec kv.2) && _) = true
    rw [wfJ_sortKeysRec kv.2 h.1, wfMembers_sortKeysMembers kvs2 h.2]
    rfl

end

/-- Inserting into a key-sorted member list keeps the keys sorted. -/
theorem keysLeChain_insertKey (kv : String × JVal)
    (l : List (String × JVal)) (h : keysLeChain l = true) :
    keysLeChain (insertKey kv l) = true := by
  induction l with
  | nil => rfl
  | cons kv2 rest ih =>
    rw [insertKey]
    split
    · rename_i hle
      rw [keysLeChain, Bool.and_eq_true]
      exact ⟨decide_eq_true hle, h⟩
    · rename_i hnle
      have hge : kv2.1 ≤ kv.1 := le_of_not_le hnle
      cases rest with
      | nil =>
        show keysLeChain [kv2, kv] = true
        rw [keysLeChain, Bool.and_eq_true]
        exact ⟨decide_eq_true hge, rfl⟩
      | cons kv3 rest2 =>
        rw [keysLeChain, Bool.and_eq_true] at h
        have hins := ih h.2
        rw [insertKey] at hins ⊢
        split
        · rename_i hle3
          rw [keysLeChain, Bool.and_eq_true]
          refine ⟨decide_eq_true hge, ?_⟩
          rw [keysLeChain, Bool.and_eq_true]
          exact ⟨decide_eq_true hle3, h.2⟩
        · rename_i hnle3
          rw [if_neg hnle3] at hins
          rw [keysLeChain]
          cases hrec : insertKey kv rest2 with
          | nil =>
            rw [Bool.and_eq_true]
            exact ⟨h.1, rfl⟩
          | cons kv4 rest4 =>
            rw [hrec] at hins
            rw [Bool.and_eq_true]
            exact ⟨decide_eq_true (of_decide_eq_true h.1), hins⟩

/-- The keys of a sorted member list form a chain. -/
theorem keysLeChain_sortMembersByKey (l : List (String × JVal)) :
    keysLeChain (sortMembersByKey l) = true := by
  induction l with
  | nil => rfl
  | cons kv rest ih =>
    show keysLeChain (insertKey kv (sortMembersByKey rest)) = true
    exact keysLeChain_insertKey kv _ ih

/-- Insertion preserves sortedness of the member values. -/
theorem keysSortedMembers_insertKey (kv : String × JVal)
    (l : List (String × JVal)) (h1 : keysSorted kv.2 = true)
    (h2 : keysSortedMembers l = true) :
    keysSortedMembers (insertKey kv l) = true := by
  induction l with
  | nil => simp [insertKey, keysSortedMembers, h1]
  | cons kv2 rest ih =>
    rw [keysSortedMembers, Bool.and_eq_true] at h2
    rw [insertKey]
    split
    · rw [keysSortedMembers, h1, keysSortedMembers, h2.1, h2.2]
      rfl
    · rw [keysSortedMembers, h2.1, ih h2.2]
      rfl

/-- Sorting preserves sortedness of the member values. -/
theorem keysSortedMembers_sortMembersByKey (l : List (String × JVal))
    (h : keysSortedMembers l = true) :
    keysSortedMembers (sortMembersByKey l) = true := by
  induction l with
  | nil => rfl
  | cons kv rest ih =>
    rw [keysSortedMembers, Bool.and_eq_true] at h
    show keysSortedMembers (insertKey kv (sortMembersByKey rest)) = true
    exact keysSortedMembers_insertKey kv _ h.1 (ih h.2)

mutual

/-- After `sortKeysRec`, every object at every nesting level has its keys
in sorted order. -/
theorem keysSorted_sortKeysRec (j : JVal) :
    keysSorted (sortKeysRec j) = true := by
  cases j with
  | jnull => rfl
  | jbool b => rfl
  | jnum t => rfl
  | jstr s => rfl
  | jarr xs =>
    rw [sortKeysRec, keysSorted]
    exact keysSortedArr_sortKeysArr xs
  | jobj kvs =>
    rw [sortKeysRec, keysSorted, Bool.and_eq_true]
    exact ⟨keysLeChain_sortMembersByKey _,
      keysSortedMembers_sortMembersByKey _
        (keysSortedMembers_sortKeysMembers kvs)⟩

/-- After recursive sorting, array elements are sorted documents. -/
theorem keysSortedArr_sortKeysArr (xs : List JVal) :
    keysSortedArr (sortKeysArr xs) = true := by
  cases xs with
  | nil => rfl
  | cons x xs2 =>
    rw [sortKeysArr, keysSortedArr, keysSorted_sortKeysRec x,
      keysSortedArr_sortKeysArr xs2]
    rfl

/-- After recursive sorting, member values are sorted documents. -/
theorem keysSortedMembers_sortKeysMembers (kvs : List (String × JVal)) :
    keysSortedMembers (sortKeysMembers kvs) = true := by
  cases kvs with
  | nil => rfl
  | cons kv kvs2 =>
    rw [sortKeysMembers, keysSortedMembers]
    show (keysSorted (sortKeysRec kv.2) && _) = true
    rw [keysSorted_sortKeysRec kv.2,
      keysSortedMembers_sortKeysMembers kvs2]
    rfl

end

/-- A quoted string literal is at least two characters long. -/
theorem quoteStr_length (s : String) : 2 ≤ (quoteStr s).length := by
  rw [quoteStr]
  simp

mutual

/-- The render of a well-formed value is at least as long as its fuel
requirement. -/
theorem jsize_le_renderJ (j : JVal) (lvl : Nat) (h : wfJ j = true) :
    jsize j ≤ (renderJ lvl j).length := by
  cases j with
  | jnull => simp [jsize, renderJ]
  | jbool b => cases b <;> simp [jsize, renderJ]
  | jnum tok =>
    rw [jsize, renderJ]
    rw [wfJ, wfNumTok] at h
    simp only [Bool.and_eq_true] at h
    cases htok : tok.data with
    | nil => rw [htok] at h; simp at h
    | cons c t => simp
  | jstr s =>
    rw [jsize, renderJ]
    have := quoteStr_length s
    omega
  | jarr xs =>
    cases xs with
    | nil => simp [jsize, jsizeArr, renderJ]
    | cons x xs2 =>
      rw [wfJ, wfArr, Bool.and_eq_true] at h
      rw [jsize, jsizeArr, renderJ]
      have h1 := jsize_le_renderJ x (lvl + 1) h.1
      have h2 := jsizeArr_le_renderArrRest xs2 (lvl + 1) h.2
      simp only [List.length_cons, List.length_append]
      omega
  | jobj kvs =>
    cases kvs with
    | nil => simp [jsize, jsizeObj, renderJ]
    | cons kv kvs2 =>
      rw [wfJ, wfMembers, Bool.and_eq_true] at h
      rw [jsize, jsizeObj, renderJ, renderMember]
      have h1 := jsize_le_renderJ kv.2 (lvl + 1) h.1
      have h2 := jsizeObj_le_renderObjRest kvs2 (lvl + 1) h.2
      have h3 := quoteStr_length kv.1
      simp only [List.length_cons, List.length_append]
      omega

/-- The render of a well-formed array tail is nearly as long as its fuel
requirement. -/
theorem jsizeArr_le_renderArrRest (xs : List JVal) (lvl : Nat)
    (h : wfArr xs = true) :
    jsizeArr xs ≤ (renderArrRest lvl xs).length + 2 := by
  cases xs with
  | nil => simp [jsizeArr, renderArrRest]
  | cons x xs2 =>
    rw [wfArr, Bool.and_eq_true] at h
    rw [jsizeArr, renderArrRest]
    have h1 := jsize_le_renderJ x lvl h.1
    have h2 := jsizeArr_le_renderArrRest xs2 lvl h.2
    simp only [List.length_cons, List.length_append]
    omega

/-- The render of a well-formed object tail is nearly as long as its fuel
requirement. -/
theorem jsizeObj_le_renderObjRest (kvs : List (String × JVal)) (lvl : Nat)
    (h : wfMembers kvs = true) :
    jsizeObj kvs ≤ (renderObjRest lvl kvs).length + 2 := by
  cases kvs with
  | nil => simp [jsizeObj, renderObjRest]
  | cons kv kvs2 =>
    rw [wfMembers, Bool.and_eq_true] at h
    rw [jsizeObj, renderObjRest, renderMember]
    have h1 := jsize_le_renderJ kv.2 lvl h.1
    have h2 := jsizeObj_le_renderObjRest kvs2 lvl h.2
    have h3 := quoteStr_length kv.1
    simp only [List.length_cons, List.length_append]
    omega

end

/-- `json.loads` undoes `json.dumps(indent=2, sort_keys=True)` on every
well-formed document: the parse returns the key-sorted document. -/
theorem jsonParse_pyDumps (j : JVal) (h : wfJ j = true) :
    jsonParse (pyDumps j) = some (sortKeysRec j) := by
  rw [jsonParse, pyDumps]
  have hwf2 := wfJ_sortKeysRec j h
  rcases renderJ_head (sortKeysRec j) 0 hwf2 with
    ⟨c0, t0, hx, hws0, _, _, _⟩
  have hdata : (String.mk (renderJ 0 (sortKeysRec j))).data =
      renderJ 0 (sortKeysRec j) := rfl
  have hlen : (String.mk (renderJ 0 (sortKeysRec j))).length =
      (renderJ 0 (sortKeysRec j)).length := rfl
  rw [hdata, hlen]
  have hsk : skipWs (renderJ 0 (sortKeysRec j)) =
      renderJ 0 (sortKeysRec j) := by
    rw [hx, skipWs_cons _ hws0]
  rw [hsk]
  have hrt : parseJ ((renderJ 0 (sortKeysRec j)).length + 1)
      (renderJ 0 (sortKeysRec j) ++ []) = some (sortKeysRec j, []) :=
    parseJ_renderJ (sortKeysRec j) 0 [] _ hwf2 trivial
      (by have := jsize_le_renderJ (sortKeysRec j) 0 hwf2; omega)
  rw [List.append_nil] at hrt
  rw [hrt]
  rfl

/-- `str(int)` is a well-formed numeric token. -/
theorem wfNumTok_pyInt (i : Int) : wfNumTok (pyInt i) = true := by
  rw [wfNumTok]
  have hdata : (pyInt i).data = intLit i := rfl
  rw [hdata, intLit]
  split
  · simp only [Bool.and_eq_true]
    refine ⟨⟨by simp, ?_⟩, by simp⟩
    simp only [List.all_cons, Bool.and_eq_true]
    refine ⟨by decide, ?_⟩
    rw [List.all_eq_true]
    intro c hc
    have hd := List.all_eq_true.mp (natLit_all_digits i.natAbs) c hc
    rw [isNumChar, hd]
    rfl
  · cases hl : natLit i.toNat with
    | nil => exact absurd hl (natLit_ne_nil _)
    | cons c t =>
      have hdig := List.all_eq_true.mp (natLit_all_digits i.toNat)
      rw [hl] at hdig
      simp only [Bool.and_eq_true]
      refine ⟨⟨by simp, ?_⟩, ?_⟩
      · rw [List.all_eq_true]
        intro x hx
        have := hdig x hx
        rw [isNumChar, this]
        rfl
      · simp only [List.head?_cons, Option.any_some]
        have hcd : c.isDigit = true := hdig c (List.mem_cons_self c t)
        simp [hcd]

/-- JSON of an optional int is well formed. -/
theorem wfJ_optIntJson (o : Option Int) : wfJ (optIntJson o) = true := by
  cases o with
  | none => rfl
  | some i => exact wfNumTok_pyInt i

/-- Arrays of strings are well formed. -/
theorem wfArr_map_jstr : ∀ l : List String,
    wfArr (l.map JVal.jstr) = true := by
  intro l
  induction l with
  | nil => rfl
  | cons s l2 ih =>
    rw [List.map_cons, wfArr]
    show (wfJ (.jstr s) && _) = true
    rw [ih]
    rfl

/-- A device document is well formed when its samplerate token is. -/
theorem wfJ_deviceJson (d : DeviceInfo)
    (h : ∀ tok, d.default_samplerate = some tok → wfNumTok tok = true) :
    wfJ (deviceJson d) = true := by
  rw [deviceJson, wfJ]
  rw [wfMembers]
  simp only [Bool.and_eq_true]
  refine ⟨wfNumTok_pyInt _, ?_⟩
  rw [wfMembers]
  simp only [Bool.and_eq_true]
  refine ⟨by cases d.name <;> rfl, ?_⟩
  rw [wfMembers]
  simp only [Bool.and_eq_true]
  refine ⟨wfJ_optIntJson _, ?_⟩
  rw [wfMembers]
  simp only [Bool.and_eq_true]
  refine ⟨wfJ_optIntJson _, ?_⟩
  rw [wfMembers]
  simp only [Bool.and_eq_true]
  refine ⟨wfJ_optIntJson _, ?_⟩
  rw [wfMembers]
  simp only [Bool.and_eq_true]
  refine ⟨?_, rfl⟩
  cases hs : d.default_samplerate with
  | none => rfl
  | some tok => exact h tok hs

/-- The whole report document is well formed when every device samplerate
token is. -/
theorem wfJ_reportJson (r : Report)
    (hdev : ∀ d ∈ r.audio_devices, ∀ tok,
      d.default_samplerate = some tok → wfNumTok tok = true) :
    wfJ (reportJson r) = true := by
  rw [reportJson, wfJ, wfMembers]
  simp only [Bool.and_eq_true]
  refine ⟨by rfl, ?_⟩
  rw [wfMembers]
  simp only [Bool.and_eq_true]
  constructor
  · rw [audioDefaultsJson]
    show wfMembers _ = true
    rw [wfMembers]
    simp only [Bool.and_eq_true]
    refine ⟨wfNumTok_pyInt _, ?_⟩
    rw [wfMembers]
    simp only [Bool.and_eq_true]
    refine ⟨wfNumTok_pyInt _, ?_⟩
    rw [wfMembers]
    simp only [Bool.and_eq_true]
    refine ⟨wfNumTok_pyInt _, ?_⟩
    rw [wfMembers]
    simp only [Bool.and_eq_true]
    refine ⟨wfNumTok_pyInt _, ?_⟩
    rw [wfMembers]
    simp only [Bool.and_eq_true]
    refine ⟨wfNumTok_pyInt _, ?_⟩
    rw [wfMembers]
    simp only [Bool.and_eq_true]
    refine ⟨wfJ_optIntJson _, ?_⟩
    rw [wfMembers]
    simp only [Bool.and_eq_true]
    exact ⟨wfJ_optIntJson _, rfl⟩
  rw [wfMembers]
  simp only [Bool.and_eq_true]
  constructor
  · show wfArr (r.audio_devices.map deviceJson) = true
    have : ∀ ds : List DeviceInfo,
        (∀ d ∈ ds, ∀ tok, d.default_samplerate = some tok →
          wfNumTok tok = true) →
        wfArr (ds.map deviceJson) = true := by
      intro ds
      induction ds with
      | nil => intro _; rfl
      | cons d ds2 ih =>
        intro hds
        rw [List.map_cons, wfArr, Bool.and_eq_true]
        exact ⟨wfJ_deviceJson d (hds d (List.mem_cons_self d ds2)),
          ih fun d2 hd2 => hds d2 (List.mem_cons_of_mem d hd2)⟩
    exact this r.audio_devices hdev
  rw [wfMembers]
  simp only [Bool.and_eq_true]
  refine ⟨by rfl, ?_⟩
  rw [wfMembers]
  simp only [Bool.and_eq_true]
  refine ⟨?_, rfl⟩
  rw [reflectionJson]
  show wfMembers _ = true
  rw [wfMembers]
  simp only [Bool.and_eq_true]
  refine ⟨wfArr_map_jstr _, ?_⟩
  rw [wfMembers]
  simp only [Bool.and_eq_true]
  refine ⟨wfArr_map_jstr _, ?_⟩
  rw [wfMembers]
  simp only [Bool.and_eq_true]
  refine ⟨wfArr_map_jstr _, ?_⟩
  rw [wfMembers]
  simp only [Bool.and_eq_true]
  refine ⟨wfArr_map_jstr _, ?_⟩
  rw [wfMembers]
  simp only [Bool.and_eq_true]
  exact ⟨wfArr_map_jstr _, rfl⟩

/-- Hex digits are not newlines. -/
theorem digitChar_ne_nl {d : Nat} (h : d < 16) :
    ¬ Nat.digitChar d = '\n' := by
  interval_cases d <;> decide

/-- Hex quadruples never contain a raw newline. -/
theorem noNL_hex4 (n : Nat) : ∀ x ∈ hex4 n, ¬ x = '\n' := by
  intro x hx
  simp only [hex4, List.mem_cons, List.not_mem_nil, or_false] at hx
  rcases hx with rfl | rfl | rfl | rfl <;>
    exact digitChar_ne_nl (Nat.mod_lt _ (by norm_num))

/-- Escapes never contain a raw newline. -/
theorem noNL_escChar (c : Char) : ∀ x ∈ escChar c, ¬ x = '\n' := by
  intro x hx
  rw [escChar] at hx
  repeat' split at hx
  · simp only [List.mem_cons, List.not_mem_nil, or_false] at hx
    rcases hx with rfl | rfl <;> decide
  · simp only [List.mem_cons, List.not_mem_nil, or_false] at hx
    rcases hx with rfl | rfl <;> decide
  · simp only [List.mem_cons, List.not_mem_nil, or_false] at hx
    rcases hx with rfl | rfl <;> decide
  · simp only [List.mem_cons, List.not_mem_nil, or_false] at hx
    rcases hx with rfl | rfl <;> decide
  · simp only [List.mem_cons, List.not_mem_nil, or_false] at hx
    rcases hx with rfl | rfl <;> decide
  · simp only [List.mem_cons, List.not_mem_nil, or_false] at hx
    rcases hx with rfl | rfl <;> decide
  · simp only [List.mem_cons, List.not_mem_nil, or_false] at hx
    rcases hx with rfl | rfl <;> decide
  · simp only [List.mem_cons] at hx
    rcases hx with rfl | rfl | hx
    · decide
    · decide
    · exact noNL_hex4 _ x hx
  · simp only [List.cons_append, List.mem_cons, List.mem_append] at hx
    rcases hx with rfl | rfl | hx | rfl | rfl | hx
    · decide
    · decide
    · exact noNL_hex4 _ x hx
    · decide
    · decide
    · exact noNL_hex4 _ x hx
  · simp only [List.mem_singleton] at hx
    subst hx
    assumption

/-- Escaped string bodies never contain a raw newline. -/
theorem noNL_escList : ∀ cs : List Char, ∀ x ∈ escList cs, ¬ x = '\n' := by
  intro cs
  induction cs with
  | nil => intro x hx; simp [escList] at hx
  | cons c cs2 ih =>
    intro x hx
    rw [escList, List.mem_append] at hx
    rcases hx with h | h
    · exact noNL_escChar c x h
    · exact ih x h

/-- Locating a newline in a concatenation: it lies in the left part (and
the right part extends the line tail) or in the right part. -/
theorem split_nl_append (a : List Char) :
    ∀ (b u v : List Char), a ++ b = u ++ '\n' :: v →
      (∃ u2 v2, a = u2 ++ '\n' :: v2 ∧ v = v2 ++ b) ∨
      (∃ u2, u = a ++ u2 ∧ b = u2 ++ '\n' :: v) := by
  induction a with
  | nil =>
    intro b u v h
    right
    exact ⟨u, by rw [List.nil_append], by rw [← h, List.nil_append]⟩
  | cons c a2 ih =>
    intro b u v h
    cases u with
    | nil =>
      rw [List.nil_append, List.cons_append] at h
      injection h with hc hrest
      left
      exact ⟨[], a2, by rw [hc, List.nil_append], hrest.symm⟩
    | cons c2 u2 =>
      rw [List.cons_append, List.cons_append] at h
      injection h with hc hrest
      rcases ih b u2 v hrest with ⟨u3, v3, ha, hv⟩ | ⟨u3, hu, hb⟩
      · left
        exact ⟨c :: u3, v3, by rw [ha, List.cons_append], hv⟩
      · right
        exact ⟨u3, by rw [← hc, hu, List.cons_append], hb⟩

/-- A newline-free chunk admits no newline split. -/
theorem nlFree_no_split (a : List Char) (h : ∀ x ∈ a, ¬ x = '\n')
    (u v : List Char) (heq : a = u ++ '\n' :: v) : False :=
  h '\n' (by rw [heq]; simp) rfl

/-- Leading spaces of an even indent followed by a non-space. -/
theorem leadingSpaces_indent (k : Nat) (c : Char) (w : List Char)
    (hc : ¬ c = ' ') :
    leadingSpaces (List.replicate k ' ' ++ c :: w) = k := by
  induction k with
  | zero =>
    simp only [leadingSpaces, List.replicate_zero, List.nil_append]
    rw [List.takeWhile_cons_of_neg (by simp [hc])]
    rfl
  | succ m ih =>
    simp only [leadingSpaces, List.replicate_succ, List.cons_append]
    rw [List.takeWhile_cons_of_pos (by simp)]
    simp only [List.length_cons]
    simp only [leadingSpaces] at ih
    omega


/-- Number characters are not newlines. -/
theorem numChar_ne_nl (c : Char) (h : isNumChar c = true) : ¬ c = '\n' := by
  intro hc
  rw [hc] at h
  exact absurd h (by decide)

/-- Quoted string literals never contain a raw newline. -/
theorem noNL_quoteStr (s : String) : ∀ x ∈ quoteStr s, ¬ x = '\n' := by
  intro x hx
  rw [quoteStr] at hx
  simp only [List.mem_append, List.mem_cons, List.not_mem_nil,
    or_false] at hx
  rcases hx with hx | hx
  · rcases hx with rfl | hx
    · decide
    · exact noNL_escList s.data x hx
  · rw [hx]
    decide

/-- Indentation prefixes never contain a raw newline. -/
theorem noNL_indentChars (lvl : Nat) :
    ∀ x ∈ indentChars lvl, ¬ x = '\n' := by
  intro x hx
  rw [indentChars] at hx
  rw [List.eq_of_mem_replicate hx]
  decide

/-- A newline-free chunk satisfies the line-shape property vacuously. -/
theorem lineShape_nlFree (a : List Char) (h : ∀ x ∈ a, ¬ x = '\n') :
    lineShape a := by
  intro u v heq
  exact (nlFree_no_split a h u v heq).elim

/-- The line-shape property is preserved by concatenation. -/
theorem lineShape_append (a b : List Char) (ha : lineShape a)
    (hb : lineShape b) : lineShape (a ++ b) := by
  intro u v h
  rcases split_nl_append a b u v h with ⟨u2, v2, hA, hV⟩ | ⟨u2, _, hB⟩
  · obtain ⟨k, c, w, hv2, hc⟩ := ha u2 v2 hA
    refine ⟨k, c, w ++ b, ?_, hc⟩
    rw [hV, hv2, List.append_assoc, List.cons_append]
  · exact hb u2 v hB

/-- Prefixing a non-newline character preserves the line-shape
property. -/
theorem lineShape_cons (c : Char) (s : List Char) (hc : ¬ c = '\n')
    (h : lineShape s) : lineShape (c :: s) := by
  intro u v heq
  cases u with
  | nil =>
    rw [List.nil_append] at heq
    injection heq with h1 _
    exact absurd h1 hc
  | cons c2 u2 =>
    rw [List.cons_append] at heq
    injection heq with _ h2
    exact h u2 v h2

/-- Prefixing a newline before an even indent followed by a non-space
character preserves the line-shape property. -/
theorem lineShape_nl (k : Nat) (c : Char) (w : List Char) (hc : ¬ c = ' ')
    (h : lineShape (List.replicate (2 * k) ' ' ++ c :: w)) :
    lineShape ('\n' :: (List.replicate (2 * k) ' ' ++ c :: w)) := by
  intro u v heq
  cases u with
  | nil =>
    rw [List.nil_append] at heq
    injection heq with _ h2
    exact ⟨k, c, w, h2.symm, hc⟩
  | cons c2 u2 =>
    rw [List.cons_append] at heq
    injection heq with _ h2
    exact h u2 v h2

/-- `lineShape_nl` through an explicit decomposition of the suffix. -/
theorem lineShape_nl_of_eq (s : List Char) (k : Nat) (c : Char)
    (w : List Char) (hs : s = List.replicate (2 * k) ' ' ++ c :: w)
    (hc : ¬ c = ' ') (h : lineShape s) : lineShape ('\n' :: s) := by
  subst hs
  exact lineShape_nl k c w hc h

/-- The first character of a rendered well-formed value is neither a
space nor a newline. -/
theorem renderJ_head_shape (lvl : Nat) (j : JVal) (h : wfJ j = true) :
    ∃ c t, renderJ lvl j = c :: t ∧ ¬ c = ' ' ∧ ¬ c = '\n' := by
  obtain ⟨c, t, he, hws, _, _, _⟩ := renderJ_head j lvl h
  refine ⟨c, t, he, ?_, ?_⟩
  · intro hc
    rw [hc] at hws
    exact absurd hws (by decide)
  · intro hc
    rw [hc] at hws
    exact absurd hws (by decide)

/-- A rendered object member starts with the opening quote of its key. -/
theorem renderMember_head (lvl : Nat) (kv : String × JVal) :
    ∃ t, renderMember lvl kv = '"' :: t := by
  rw [renderMember, quoteStr]
  exact ⟨_, rfl⟩

/-- A rendered member has the line-shape property as soon as its rendered
value does. -/
theorem renderMember_lineShape_of (lvl : Nat) (kv : String × JVal)
    (h : lineShape (renderJ lvl kv.2)) :
    lineShape (renderMember lvl kv) := by
  rw [renderMember]
  refine lineShape_append _ _ (lineShape_nlFree _ (noNL_quoteStr kv.1)) ?_
  refine lineShape_cons _ _ (by decide) ?_
  exact lineShape_cons _ _ (by decide) h

/-- The closing line of a container: newline, even indent, one closing
bracket. -/
theorem lineShape_close (lvl : Nat) (c : Char) (hcb : ¬ c = ' ')
    (hcn : ¬ c = '\n') :
    lineShape ('\n' :: (indentChars lvl ++ [c])) := by
  refine lineShape_nl_of_eq _ lvl c [] ?_ hcb ?_
  · rw [indentChars]
  · refine lineShape_nlFree _ ?_
    intro x hx
    rw [List.mem_append] at hx
    rcases hx with hx | hx
    · exact noNL_indentChars lvl x hx
    · rw [List.mem_singleton] at hx
      rw [hx]
      exact hcn

mutual

/-- Every line inside the render of a well-formed value starts with an
even number of spaces followed by a non-space character. -/
theorem renderJ_lineShape (lvl : Nat) (j : JVal) (h : wfJ j = true) :
    lineShape (renderJ lvl j) := by
  cases j with
  | jnull =>
    rw [renderJ]
    refine lineShape_nlFree _ ?_
    decide
  | jbool b =>
    cases b with
    | true =>
      rw [renderJ]
      refine lineShape_nlFree _ ?_
      decide
    | false =>
      rw [renderJ]
      refine lineShape_nlFree _ ?_
      decide
  | jnum tok =>
    rw [renderJ]
    rw [wfJ, wfNumTok] at h
    simp only [Bool.and_eq_true] at h
    refine lineShape_nlFree _ ?_
    intro x hx
    exact numChar_ne_nl x (List.all_eq_true.mp h.1.2 x hx)
  | jstr s =>
    rw [renderJ]
    exact lineShape_nlFree _ (noNL_quoteStr s)
  | jarr xs =>
    cases xs with
    | nil =>
      rw [renderJ]
      refine lineShape_nlFree _ ?_
      decide
    | cons x xs2 =>
      rw [wfJ, wfArr, Bool.and_eq_true] at h
      rw [renderJ]
      obtain ⟨c, t, hct, hcs, _⟩ := renderJ_head_shape (lvl + 1) x h.1
      refine lineShape_cons _ _ (by decide)
        (lineShape_nl_of_eq _ (lvl + 1) c
          (t ++ (renderArrRest (lvl + 1) xs2 ++
            '\n' :: (indentChars lvl ++ [']']))) ?_ hcs ?_)
      · rw [hct, indentChars]
        simp only [List.append_assoc, List.cons_append]
      · refine lineShape_append _ _ ?_
          (lineShape_close lvl ']' (by decide) (by decide))
        refine lineShape_append _ _ ?_
          (renderArrRest_lineShape (lvl + 1) xs2 h.2)
        exact lineShape_append _ _
          (lineShape_nlFree _ (noNL_indentChars (lvl + 1)))
          (renderJ_lineShape (lvl + 1) x h.1)
  | jobj kvs =>
    cases kvs with
    | nil =>
      rw [renderJ]
      refine lineShape_nlFree _ ?_
      decide
    | cons kv kvs2 =>
      rw [wfJ, wfMembers, Bool.and_eq_true] at h
      rw [renderJ]
      obtain ⟨t, ht⟩ := renderMember_head (lvl + 1) kv
      refine lineShape_cons _ _ (by decide)
        (lineShape_nl_of_eq _ (lvl + 1) '"'
          (t ++ (renderObjRest (lvl + 1) kvs2 ++
            '\n' :: (indentChars lvl ++ ['\x7d']))) ?_ (by decide) ?_)
      · rw [ht, indentChars]
        simp only [List.append_assoc, List.cons_append]
      · refine lineShape_append _ _ ?_
          (lineShape_close lvl '\x7d' (by decide) (by decide))
        refine lineShape_append _ _ ?_
          (renderObjRest_lineShape (lvl + 1) kvs2 h.2)
        exact lineShape_append _ _
          (lineShape_nlFree _ (noNL_indentChars (lvl + 1)))
          (renderMember_lineShape_of (lvl + 1) kv
            (renderJ_lineShape (lvl + 1) kv.2 h.1))

/-- Line-shape property of a rendered array tail. -/
theorem renderArrRest_lineShape (lvl : Nat) (xs : List JVal)
    (h : wfArr xs = true) : lineShape (renderArrRest lvl xs) := by
  cases xs with
  | nil =>
    rw [renderArrRest]
    exact lineShape_nlFree _ (fun x hx => absurd hx (List.not_mem_nil x))
  | cons x xs2 =>
    rw [wfArr, Bool.and_eq_true] at h
    rw [renderArrRest]
    obtain ⟨c, t, hct, hcs, _⟩ := renderJ_head_shape lvl x h.1
    refine lineShape_cons _ _ (by decide)
      (lineShape_nl_of_eq _ lvl c (t ++ renderArrRest lvl xs2)
        ?_ hcs ?_)
    · rw [hct, indentChars]
      simp only [List.append_assoc, List.cons_append]
    · refine lineShape_append _ _ ?_
        (renderArrRest_lineShape lvl xs2 h.2)
      exact lineShape_append _ _
        (lineShape_nlFree _ (noNL_indentChars lvl))
        (renderJ_lineShape lvl x h.1)

/-- Line-shape property of a rendered object tail. -/
theorem renderObjRest_lineShape (lvl : Nat) (kvs : List (String × JVal))
    (h : wfMembers kvs = true) : lineShape (renderObjRest lvl kvs) := by
  cases kvs with
  | nil =>
    rw [renderObjRest]
    exact lineShape_nlFree _ (fun x hx => absurd hx (List.not_mem_nil x))
  | cons kv kvs2 =>
    rw [wfMembers, Bool.and_eq_true] at h
    rw [renderObjRest]
    obtain ⟨t, ht⟩ := renderMember_head lvl kv
    refine lineShape_cons _ _ (by decide)
      (lineShape_nl_of_eq _ lvl '"' (t ++ renderObjRest lvl kvs2)
        ?_ (by decide) ?_)
    · rw [ht, indentChars]
      simp only [List.append_assoc, List.cons_append]
    · refine lineShape_append _ _ ?_
        (renderObjRest_lineShape lvl kvs2 h.2)
      exact lineShape_append _ _
        (lineShape_nlFree _ (noNL_indentChars lvl))
        (renderMember_lineShape_of lvl kv
          (renderJ_lineShape lvl kv.2 h.1))

end

/-- The key-sorted report document exposes exactly the five top-level
sections, in lexicographic order. -/
theorem topKeys_reportJson (r : Report) :
    topKeys (sortKeysRec (reportJson r)) =
      ["audio_defaults", "audio_devices", "credentials", "reflection",
       "runtime"] := by
  rw [reportJson, sortKeysRec]
  rw [sortKeysMembers, sortKeysMembers, sortKeysMembers, sortKeysMembers,
    sortKeysMembers, sortKeysMembers]
  simp [sortMembersByKey, insertKey, topKeys, List.foldr,
    show ¬ (['r', 'u', 'n', 't', 'i', 'm', 'e'] ≤ ['a', 'u', 'd', 'i', 'o', '_', 'd', 'e', 'f', 'a', 'u', 'l', 't', 's']) from by decide,
    show ¬ (['r', 'u', 'n', 't', 'i', 'm', 'e'] ≤ ['a', 'u', 'd', 'i', 'o', '_', 'd', 'e', 'v', 'i', 'c', 'e', 's']) from by decide,
    show ¬ (['r', 'u', 'n', 't', 'i', 'm', 'e'] ≤ ['c', 'r', 'e', 'd', 'e', 'n', 't', 'i', 'a', 'l', 's']) from by decide,
    show ¬ (['r', 'u', 'n', 't', 'i', 'm', 'e'] ≤ ['r', 'e', 'f', 'l', 'e', 'c', 't', 'i', 'o', 'n']) from by decide]

/-- C3: for every report, the structured-mode (`--json`) output is a
valid serialization: parsing it back succeeds and returns exactly the
key-sorted report document, whose top-level keys are exactly
`audio_defaults`, `audio_devices`, `credentials`, `reflection` and
`runtime`, whose object keys are lexicographically sorted at every
nesting level, and in which every line opened by a newline is indented
by an even number of spaces (two-space indentation units). -/
theorem structured_mode_output (r : Report)
    (hdev : ∀ d ∈ r.audio_devices, ∀ tok,
      d.default_samplerate = some tok → wfNumTok tok = true) :
    jsonParse (pyDumps (reportJson r)) =
      some (sortKeysRec (reportJson r)) ∧
    topKeys (sortKeysRec (reportJson r)) =
      ["audio_defaults", "audio_devices", "credentials", "reflection",
       "runtime"] ∧
    keysSorted (sortKeysRec (reportJson r)) = true ∧
    ∀ u v, (pyDumps (reportJson r)).data = u ++ '\n' :: v →
      leadingSpaces v % 2 = 0 := by
  have hwf := wfJ_reportJson r hdev
  refine ⟨jsonParse_pyDumps _ hwf, topKeys_reportJson r,
    keysSorted_sortKeysRec _, ?_⟩
  intro u v hsplit
  have hls := renderJ_lineShape 0 (sortKeysRec (reportJson r))
    (wfJ_sortKeysRec _ hwf)
  have hdata : (pyDumps (reportJson r)).data =
      renderJ 0 (sortKeysRec (reportJson r)) := rfl
  rw [hdata] at hsplit
  obtain ⟨k, c, w, hv, hc⟩ := hls u v hsplit
  rw [hv, leadingSpaces_indent (2 * k) c w hc]
  omega

/-- C3 witness: the sample report satisfies the numeric-token hypothesis
and the structured-mode conclusions. -/
theorem structured_mode_output_witness :
    (∀ d ∈ sampleReport.audio_devices, ∀ tok,
      d.default_samplerate = some tok → wfNumTok tok = true) ∧
    (jsonParse (pyDumps (reportJson sampleReport)) =
      some (sortKeysRec (reportJson sampleReport)) ∧
    topKeys (sortKeysRec (reportJson sampleReport)) =
      ["audio_defaults", "audio_devices", "credentials", "reflection",
       "runtime"] ∧
    keysSorted (sortKeysRec (reportJson sampleReport)) = true ∧
    ∀ u v, (pyDumps (reportJson sampleReport)).data = u ++ '\n' :: v →
      leadingSpaces v % 2 = 0) := by
  have hdev : ∀ d ∈ sampleReport.audio_devices, ∀ tok,
      d.default_samplerate = some tok → wfNumTok tok = true := by
    intro d hd tok htok
    rw [show sampleReport.audio_devices =
      [_format_device sampleDevice 0] from rfl] at hd
    rw [List.mem_singleton] at hd
    subst hd
    injection htok with h
    rw [← h]
    decide
  exact ⟨hdev, structured_mode_output sampleReport hdev⟩

end Diagnostics
